import Mathlib

/-! # omiewatcher: ingestion and trend pipeline

A shallow embedding of `getData`, `checkPriceTrend` and `updateListings`
(`main.go`), of the `Entry` record (`database.go`) and of
`SendMatrixNotification` (`matrix.go`).

Modelling conventions.

* Go strings are Lean strings; `[]byte(s)` is the UTF-8 encoding of `s`.
* Functions of third-party or standard libraries that the code calls
  (`decimal.NewFromString`, `time.Parse`, `Time.AddDate`, `sha256.Sum256`) are
  fields of a structure `Lib` that the embedded functions take as an argument:
  the general theorems hold for every behaviour of these functions. `goLib`
  is a reference model of them used to evaluate the code on concrete rows.
* The body of the HTTP response is given as the sequence of records that the
  `encoding/csv` tokenizer (with `Comma = ';'`) finds in it, each either a list
  of fields or a syntax error; `Reader.Read` applies `FieldsPerRecord = 5` and
  returns `io.EOF` once the sequence is used up. A row is such a record: how
  the tokenizer cuts the text into records (quoted fields, blank lines) is
  not part of the embedding. A body that breaks off (`HttpResult.cutShort`)
  is a sequence of records after which every call of `Read` returns the error
  of the underlying reader, such as `unexpected EOF`, and not `io.EOF`.
* The lines `getData` logs for skipped records are left out; `logs` holds the
  lines of `updateListings`, `checkPriceTrend` and `SendMatrixNotification`.
* `time.Now()` is a stream of readings `clock 0, clock 1, ...`, one per call.
* A function that can return an error, panic at run time, or loop returns a
  `Res`: `ok`, `err` (a non-nil `error`), `panic`, or `fuel` (the bound on the
  number of loop iterations given to the model was too small). A loop that
  never ends gives `fuel` for every bound.
* `float64` arithmetic is left abstract: the trend code is embedded over any
  type `F` carrying the operations of the class `Float64`, none of whose laws
  are assumed.
-/

namespace OmieWatcher

/-! ## Outcomes -/

/-- The result of running a Go function that returns `(α, error)`. -/
inductive Res (α : Type) where
  | ok (a : α)
  | err (msg : String)
  | panic (msg : String)
  | fuel
  deriving DecidableEq

/-! ## Data model (`database.go`) -/

/-- The type `decimal.Decimal` of shopspring: the number `value * 10 ^ exp`. -/
structure Decimal where
  value : Int
  exp : Int
  deriving DecidableEq

/-- The number a `Decimal` stands for. -/
def Decimal.toRat (d : Decimal) : ℚ := (d.value : ℚ) * (10 : ℚ) ^ d.exp

/-- A `time.Time` in UTC: a calendar date and the nanoseconds since midnight. -/
structure Time where
  year : Int
  month : Nat
  day : Nat
  nsec : Nat
  deriving DecidableEq

/-- The record `Entry` of `database.go`. -/
structure Entry where
  ID : String
  Fecha : Time
  Min : Decimal
  Max : Decimal
  Avg : Decimal
  CreatedAt : Time
  deriving DecidableEq

/-! ## Library functions used by `getData` -/

/-- The library functions `getData` and `checkPriceTrend` call. An `error`
result is `none`: the code never looks at the text of these errors. -/
structure Lib where
  /-- The function `decimal.NewFromString`. -/
  NewFromString : String → Option Decimal
  /-- The call `time.Parse(layout, value)`. -/
  Parse : String → String → Option Time
  /-- The call `t.AddDate(years, months, days)`. -/
  AddDate : Time → Int → Int → Int → Time
  /-- The function `sha256.Sum256`, from bytes to the bytes of the digest. -/
  Sum256 : List Nat → List Nat

/-- The call `strings.ReplaceAll(s, old, new)` for patterns of one ASCII
character. -/
def ReplaceAll (s : String) (old new : Char) : String :=
  ⟨s.data.map fun c => if c = old then new else c⟩

/-- The UTF-8 encoding of one character. -/
def utf8 (c : Char) : List Nat :=
  let n := c.toNat
  if n < 0x80 then [n]
  else if n < 0x800 then [0xC0 + n / 64, 0x80 + n % 64]
  else if n < 0x10000 then [0xE0 + n / 4096, 0x80 + n / 64 % 64, 0x80 + n % 64]
  else [0xF0 + n / 262144, 0x80 + n / 4096 % 64, 0x80 + n / 64 % 64, 0x80 + n % 64]

/-- The conversion `[]byte(s)`. -/
def bytes (s : String) : List Nat := s.data.flatMap utf8

/-- One lowercase hexadecimal digit. -/
def hexDigit (n : Nat) : Char := "0123456789abcdef".data.getD n '0'

/-- The verb `%x` of `fmt.Sprintf` on a byte array: two lowercase hexadecimal
digits per byte. -/
def sprintfHex (bs : List Nat) : String :=
  ⟨bs.flatMap fun b => [hexDigit (b / 16 % 16), hexDigit (b % 16)]⟩

/-! ## Reference models of the library functions -/

/-- The value of a decimal digit character. -/
def digitVal (c : Char) : Option Nat :=
  if '0' ≤ c ∧ c ≤ '9' then some (c.toNat - '0'.toNat) else none

/-- The number written by a list of decimal digits after the digits already
read as `acc`; `none` when a character is not a digit. -/
def readDigits : List Char → Nat → Option Nat
  | [], acc => some acc
  | c :: cs, acc =>
    match digitVal c with
    | none => none
    | some d => readDigits cs (acc * 10 + d)

/-- Base-10 integer syntax of `strconv.ParseInt` and `big.Int.SetString`: an
optional sign and at least one digit. -/
def parseInt (s : List Char) : Option Int :=
  match s with
  | [] => none
  | '+' :: ds => if ds = [] then none else (readDigits ds 0).map Int.ofNat
  | '-' :: ds => if ds = [] then none else (readDigits ds 0).map fun n => -Int.ofNat n
  | ds => (readDigits ds 0).map Int.ofNat

/-- Model of `decimal.NewFromString` (shopspring): an optional exponent after
`e` or `E` that fits 32 bits, at most one `.`, and the remaining characters an
integer; the result is that integer with the exponent lowered by the number of
digits after the point. -/
def decimalNewFromString (s : String) : Option Decimal :=
  let value := s.data
  let mant := value.takeWhile fun c => c ≠ 'e' ∧ c ≠ 'E'
  let tail := value.dropWhile fun c => c ≠ 'e' ∧ c ≠ 'E'
  let exp? : Option Int :=
    match tail with
    | [] => some 0
    | _ :: ex =>
      match parseInt ex with
      | none => none
      | some n => if -2147483648 ≤ n ∧ n ≤ 2147483647 then some n else none
  match exp? with
  | none => none
  | some exp =>
    if 1 < mant.count '.' then none
    else
      let whole := mant.takeWhile fun c => c ≠ '.'
      let frac := (mant.dropWhile fun c => c ≠ '.').drop 1
      match parseInt (whole ++ frac) with
      | none => none
      | some v =>
        let exp := exp - (frac.length : Int)
        if exp < -2147483648 ∨ 2147483647 < exp then none
        else some { value := v, exp := exp }

/-- The function `isLeap` of package `time`. -/
def isLeap (year : Int) : Bool :=
  year % 4 = 0 ∧ (year % 100 ≠ 0 ∨ year % 400 = 0)

/-- The function `daysIn` of package `time`. -/
def daysIn (month : Nat) (year : Int) : Nat :=
  if month = 2 then (if isLeap year then 29 else 28)
  else if month = 4 ∨ month = 6 ∨ month = 9 ∨ month = 11 then 30
  else 31

/-- The function `getnum` of package `time` with `fixed = true`: exactly two
digits. -/
def getnum2 : List Char → Option (Nat × List Char)
  | a :: b :: rest =>
    match digitVal a, digitVal b with
    | some x, some y => some (x * 10 + y, rest)
    | _, _ => none
  | _ => none

/-- The function `atoi` of package `time` on the two characters of a year: a
sign and a digit, or two digits. -/
def atoi2 (a b : Char) : Option Int :=
  if a = '-' then (digitVal b).map fun d => -Int.ofNat d
  else if a = '+' then (digitVal b).map Int.ofNat
  else
    match digitVal a, digitVal b with
    | some x, some y => some (Int.ofNat (x * 10 + y))
    | _, _ => none

/-- Model of `time.Parse` for the layout `02/01/06`, the only one the code
uses: two digits of day, `/`, two digits of month in 1..12, `/`, two
characters of year (69..99 are 1969..1999, below 69 is 2000 + year), nothing
after them, and the day within the month. The time of day is midnight UTC. -/
def timeParse (layout value : String) : Option Time :=
  if layout ≠ "02/01/06" then none
  else
    match getnum2 value.data with
    | none => none
    | some (day, v1) =>
      match v1 with
      | '/' :: v2 =>
        match getnum2 v2 with
        | none => none
        | some (month, v3) =>
          if month = 0 ∨ 12 < month then none
          else
            match v3 with
            | ['/', a, b] =>
              match atoi2 a b with
              | none => none
              | some y =>
                let year : Int := if 69 ≤ y then y + 1900 else y + 2000
                if day < 1 ∨ daysIn month year < day then none
                else some { year := year, month := month, day := day, nsec := 0 }
            | _ => none
      | _ => none

/-- Reduction of a natural number to a 32-bit word. -/
def word (x : Nat) : Nat := x % 4294967296

/-- Rotation of a 32-bit word to the right. -/
def rotr (n x : Nat) : Nat := word ((x >>> n) ||| (x <<< (32 - n)))

/-- The largest `r` below `2 ^ bits` with `r ^ k ≤ n`, found bit by bit from
the top. -/
def iroot (k n : Nat) : Nat → Nat → Nat
  | 0, r => r
  | bits + 1, r => if (r + 2 ^ bits) ^ k ≤ n then iroot k n bits (r + 2 ^ bits) else iroot k n bits r

/-- The first 64 prime numbers. -/
def primes64 : List Nat :=
  [2, 3, 5, 7, 11, 13, 17, 19, 23, 29, 31, 37, 41, 43, 47, 53, 59, 61, 67, 71, 73, 79, 83, 89,
    97, 101, 103, 107, 109, 113, 127, 131, 137, 139, 149, 151, 157, 163, 167, 173, 179, 181,
    191, 193, 197, 199, 211, 223, 227, 229, 233, 239, 241, 251, 257, 263, 269, 271, 277, 281,
    283, 293, 307, 311]

/-- The initial hash value of SHA-256: the first 32 bits of the fractional
parts of the square roots of the first 8 primes. -/
def sha256Init : List Nat :=
  (primes64.take 8).map fun p => word (iroot 2 (p * 2 ^ 64) 36 0)

/-- The round constants of SHA-256: the first 32 bits of the fractional parts
of the cube roots of the first 64 primes. -/
def sha256K : List Nat :=
  primes64.map fun p => word (iroot 3 (p * 2 ^ 96) 36 0)

/-- The padding of SHA-256: a byte `0x80`, zero bytes up to 56 modulo 64, and
the length of the message in bits as 8 big-endian bytes. -/
def sha256Pad (msg : List Nat) : List Nat :=
  let bits := 8 * msg.length
  msg ++ [128] ++ List.replicate ((119 - msg.length % 64) % 64) 0 ++
    (List.range 8).map fun i => bits / 256 ^ (7 - i) % 256

/-- The big-endian 32-bit words of a list of bytes (whole words only). -/
def wordsOf : List Nat → List Nat
  | a :: b :: c :: d :: rest => (((a * 256 + b) * 256 + c) * 256 + d) :: wordsOf rest
  | _ => []

/-- The message schedule of SHA-256 extended by `n` words. -/
def sha256Schedule : Nat → List Nat → List Nat
  | 0, w => w
  | n + 1, w =>
    let t := w.length
    let w2 := w.getD (t - 2) 0
    let w15 := w.getD (t - 15) 0
    let s0 := rotr 7 w15 ^^^ rotr 18 w15 ^^^ (w15 >>> 3)
    let s1 := rotr 17 w2 ^^^ rotr 19 w2 ^^^ (w2 >>> 10)
    sha256Schedule n (w ++ [word (s1 + w.getD (t - 7) 0 + s0 + w.getD (t - 16) 0)])

/-- One round of the compression function of SHA-256 on the working
variables `a .. h`, with round constant `k` and schedule word `w`. -/
def sha256Round (v : List Nat) (kw : Nat × Nat) : List Nat :=
  match v with
  | [a, b, c, d, e, f, g, h] =>
    let S1 := rotr 6 e ^^^ rotr 11 e ^^^ rotr 25 e
    let ch := (e &&& f) ^^^ ((4294967295 - e) &&& g)
    let t1 := word (h + S1 + ch + kw.1 + kw.2)
    let S0 := rotr 2 a ^^^ rotr 13 a ^^^ rotr 22 a
    let maj := (a &&& b) ^^^ (a &&& c) ^^^ (b &&& c)
    let t2 := word (S0 + maj)
    [word (t1 + t2), a, b, c, word (d + t1), e, f, g]
  | _ => v

/-- The compression of one 16-word block into the hash state. -/
def sha256Block (state block : List Nat) : List Nat :=
  let w := sha256Schedule 48 block
  List.zipWith (fun x y => word (x + y)) state ((sha256K.zip w).foldl sha256Round state)

/-- The hash state after the 16-word blocks of `ws`. -/
def sha256Blocks : Nat → List Nat → List Nat → List Nat
  | 0, state, _ => state
  | n + 1, state, ws => sha256Blocks n (sha256Block state (ws.take 16)) (ws.drop 16)

/-- Model of `sha256.Sum256` (FIPS 180-4): the 32 bytes of the digest. -/
def sha256Sum256 (msg : List Nat) : List Nat :=
  let ws := wordsOf (sha256Pad msg)
  (sha256Blocks (ws.length / 16) sha256Init ws).flatMap fun x =>
    [x / 16777216, x / 65536 % 256, x / 256 % 256, x % 256]

/-- The number of days from 1970-01-01 to the given date of the proleptic
Gregorian calendar; the day may lie outside the month. -/
def daysFromCivil (y : Int) (m : Int) (d : Int) : Int :=
  let y := if m ≤ 2 then y - 1 else y
  let era := y / 400
  let yoe := y - era * 400
  let doy := (153 * (if 2 < m then m - 3 else m + 9) + 2) / 5 + d - 1
  era * 146097 + (yoe * 365 + yoe / 4 - yoe / 100 + doy) - 719468

/-- The date that lies the given number of days after 1970-01-01. -/
def civilFromDays (z : Int) : Int × Nat × Nat :=
  let z := z + 719468
  let era := z / 146097
  let doe := z - era * 146097
  let yoe := (doe - doe / 1460 + doe / 36524 - doe / 146096) / 365
  let doy := doe - (365 * yoe + yoe / 4 - yoe / 100)
  let mp := (5 * doy + 2) / 153
  let d := doy - (153 * mp + 2) / 5 + 1
  let m := if mp < 10 then mp + 3 else mp - 9
  (if m ≤ 2 then yoe + era * 400 + 1 else yoe + era * 400, m.toNat, d.toNat)

/-- Model of `t.AddDate years months days`: the date is rebuilt from
`year + years`, `month + months`, `day + days`, with months and days out of
range carried over; the time of day is kept. -/
def timeAddDate (t : Time) (years months days : Int) : Time :=
  let m := (t.month : Int) - 1 + months
  let y := t.year + years + m / 12
  let c := civilFromDays (daysFromCivil y (m % 12 + 1) 1 + ((t.day : Int) - 1 + days))
  { year := c.1, month := c.2.1, day := c.2.2, nsec := t.nsec }

/-- The reference model of the library functions. -/
def goLib : Lib where
  NewFromString := decimalNewFromString
  Parse := timeParse
  AddDate := timeAddDate
  Sum256 := sha256Sum256

/-! ## The CSV reader (`encoding/csv`, `Comma = ';'`, `FieldsPerRecord = 5`) -/

/-- One record of the response body as the tokenizer of `encoding/csv` finds
it: its fields, or a quoting error. `line` is the line it starts on. -/
inductive RawRow where
  | fields (line : Nat) (fs : List String)
  | broken (line column : Nat) (reason : String)
  deriving DecidableEq

/-- The errors `Reader.Read` returns: `io.EOF`, a `*csv.ParseError`, or the
error of the underlying reader with its text. -/
inductive ReadErr where
  | EOF
  | FieldCount (line : Nat)
  | Syntax (line column : Nat) (reason : String)
  | Underlying (msg : String)
  deriving DecidableEq

/-- The method `Error()` of the errors of `Reader.Read`. -/
def ReadErr.Error : ReadErr → String
  | .EOF => "EOF"
  | .FieldCount line => "record on line " ++ toString line ++ ": wrong number of fields"
  | .Syntax line column reason =>
    "parse error on line " ++ toString line ++ ", column " ++ toString column ++ ": " ++ reason
  | .Underlying msg => msg

/-- A `csv.Reader`: its setting `FieldsPerRecord`, the records still to be
read, and how the underlying reader ends after them: with `io.EOF` (`none`),
or with another error, whose text is given, when the body breaks off. -/
structure Reader where
  FieldsPerRecord : Nat
  rest : List RawRow
  failure : Option String

/-- The call `reader.Read()`: the record, the error, and the reader afterwards. A
record with the wrong number of fields is returned together with
`ErrFieldCount`; once the records are used up every call returns `io.EOF`,
or, when the body broke off, the error of the underlying reader, and the
reader stays as it is. -/
def Reader.Read (r : Reader) : (List String × Option ReadErr) × Reader :=
  match r.rest with
  | [] =>
    match r.failure with
    | none => (([], some .EOF), r)
    | some msg => (([], some (.Underlying msg)), r)
  | .fields line fs :: rest =>
    if 0 < r.FieldsPerRecord ∧ fs.length ≠ r.FieldsPerRecord then
      ((fs, some (.FieldCount line)), { r with rest := rest })
    else ((fs, none), { r with rest := rest })
  | .broken line column reason :: rest =>
    (([], some (.Syntax line column reason)), { r with rest := rest })

/-! ## `getData` (`main.go`) -/

/-- The outcome of `http.Get(url)`: a transport error; a response with its
status code and its body, which ends with `io.EOF`; or a response whose body
breaks off after the records `body`, reading it further giving the error
`msg` (`unexpected EOF` for `io.ErrUnexpectedEOF`). -/
inductive HttpResult where
  | transportError (msg : String)
  | response (status : Nat) (body : List RawRow)
  | cutShort (status : Nat) (body : List RawRow) (msg : String)

/-- The reading loop of `getData`: `lineNum` counts the calls of `Read`, the
first two results are dropped whatever they are, `io.EOF` ends the loop, any
other error skips the record. `none` when the iteration bound is used up. -/
def readLoop : Nat → Reader → Nat → List (List String) → Option (List (List String))
  | 0, _, _, _ => none
  | fuel + 1, reader, lineNum, lines =>
    let lineNum := lineNum + 1
    let (res, reader) := reader.Read
    if lineNum < 3 then readLoop fuel reader lineNum lines
    else
      match res.2 with
      | some e => if e.Error = "EOF" then some lines else readLoop fuel reader lineNum lines
      | none => readLoop fuel reader lineNum (lines ++ [res.1])

/-- The index expression `xs[i]` of Go on a slice. -/
def index {α : Type} (xs : List α) (i : Nat) : Option α := xs[i]?

/-- The text of the run-time panic of an index expression `xs[i]` with `i`
outside `0 .. len(xs) - 1`. -/
def indexPanic (i : Int) (len : Nat) : String :=
  if i < 0 then "runtime error: index out of range [" ++ toString i ++ "]"
  else "runtime error: index out of range [" ++ toString i ++ "] with length " ++ toString len

/-- The body of the second loop of `getData` for one line: `panic` on an index
out of range, `ok none` when a `continue` is taken, `ok (some e)` when the
entry `e` is appended. `now` is the reading `time.Now()` would give. -/
def parseLine (L : Lib) (now : Time) (line : List String) : Res (Option Entry) :=
  match index line 1 with
  | none => .panic (indexPanic 1 line.length)
  | some f1 =>
  match L.NewFromString (ReplaceAll f1 ',' '.') with
  | none => .ok none
  | some minimo =>
  match index line 2 with
  | none => .panic (indexPanic 2 line.length)
  | some f2 =>
  match L.NewFromString (ReplaceAll f2 ',' '.') with
  | none => .ok none
  | some medio =>
  match index line 3 with
  | none => .panic (indexPanic 3 line.length)
  | some f3 =>
  match L.NewFromString (ReplaceAll f3 ',' '.') with
  | none => .ok none
  | some maximo =>
  match index line 0 with
  | none => .panic (indexPanic 0 line.length)
  | some f0 =>
  match L.Parse "02/01/06" f0 with
  | none => .ok none
  | some fecha =>
    let sumData := f1 ++ f2 ++ f3
    .ok (some
      { ID := sprintfHex (L.Sum256 (bytes sumData))
        Fecha := fecha
        Min := minimo
        Avg := medio
        Max := maximo
        CreatedAt := now })

/-- The second loop of `getData`: `tick` is the number of readings of the
clock taken so far, `entries` the entries appended so far. -/
def parseLoop (L : Lib) (clock : Nat → Time) :
    List (List String) → Nat → List Entry → Res (List Entry)
  | [], _, entries => .ok entries
  | line :: rest, tick, entries =>
    match parseLine L (clock tick) line with
    | .ok none => parseLoop L clock rest tick entries
    | .ok (some e) => parseLoop L clock rest (tick + 1) (entries ++ [e])
    | .err msg => .err msg
    | .panic msg => .panic msg
    | .fuel => .fuel

/-- The part of `getData` after `http.Get` returned a response: the check of
the status code and the two loops, the reading loop with at most `fuel`
iterations. -/
def getDataBody (fuel : Nat) (L : Lib) (clock : Nat → Time) (status : Nat) (reader : Reader) :
    Res (List Entry) :=
  if status ≠ 200 then .err ("server status code not 200: " ++ toString status)
  else
    match readLoop fuel reader 0 [] with
    | none => .fuel
    | some lines => parseLoop L clock lines 1 []

/-- The function `getData` with at most `fuel` iterations of the reading
loop. The first reading of the clock (`clock 0`) goes into the URL; `http` is
what `http.Get` returns for that URL. -/
def getDataFuel (fuel : Nat) (L : Lib) (clock : Nat → Time) (http : HttpResult) :
    Res (List Entry) :=
  match http with
  | .transportError msg => .err msg
  | .response status body =>
    getDataBody fuel L clock status { FieldsPerRecord := 5, rest := body, failure := none }
  | .cutShort status body msg =>
    getDataBody fuel L clock status { FieldsPerRecord := 5, rest := body, failure := some msg }

/-- The records of the body of a response. -/
def HttpResult.rows : HttpResult → List RawRow
  | .transportError _ => []
  | .response _ body => body
  | .cutShort _ body _ => body

/-- The function `getData`: the reading loop is given three iterations more
than the body has records, which is enough whenever the body ends with
`io.EOF`. -/
def getData (L : Lib) (clock : Nat → Time) (http : HttpResult) : Res (List Entry) :=
  getDataFuel (http.rows.length + 3) L clock http

/-! ## The moving average (`github.com/VividCortex/ewma`) -/

/-- The operations on `float64` the code uses: arithmetic, the constants
written in the code, the comparison `>` and the formatting verbs. -/
class Float64 (F : Type) extends Add F, Sub F, Mul F, Div F where
  /-- The constant written as the integer `n`. -/
  lit : Nat → F
  /-- The comparison `x > y`. -/
  gt : F → F → Bool
  /-- The verb `%0.2f`. -/
  fmt2 : F → String
  /-- The verb `%f`. -/
  fmtf : F → String

/-- The type `VariableEWMA`. -/
structure VariableEWMA (F : Type) where
  decay : F
  value : F
  count : Nat

/-- The constant `WARMUP_SAMPLES`. -/
def WARMUP_SAMPLES : Nat := 10

/-- The call `ewma.NewMovingAverage(age)` for an age other than 30: a `VariableEWMA`
with decay `2 / (age + 1)`. -/
def NewMovingAverage {F : Type} [Float64 F] (age : Nat) : VariableEWMA F :=
  { decay := Float64.lit 2 / (Float64.lit age + Float64.lit 1)
    value := Float64.lit 0
    count := 0 }

/-- The method `Add`: the first 10 samples are summed, the 11th turns the sum
into their mean and starts the exponential average. -/
def VariableEWMA.Add {F : Type} [Float64 F] (e : VariableEWMA F) (value : F) : VariableEWMA F :=
  if e.count < WARMUP_SAMPLES then
    { e with count := e.count + 1, value := e.value + value }
  else if e.count = WARMUP_SAMPLES then
    let mean := e.value / Float64.lit WARMUP_SAMPLES
    { e with count := e.count + 1, value := value * e.decay + mean * (Float64.lit 1 - e.decay) }
  else
    { e with value := value * e.decay + e.value * (Float64.lit 1 - e.decay) }

/-- The method `Value`: zero until the warm-up is over. -/
def VariableEWMA.Value {F : Type} [Float64 F] (e : VariableEWMA F) : F :=
  if e.count ≤ WARMUP_SAMPLES then Float64.lit 0 else e.value

/-! ## Process state and external collaborators -/

/-- The type `ConfigData`. -/
structure ConfigData (F : Type) where
  MaxValue : F
  deriving DecidableEq

/-- The state a run of `updateListings` reads and writes: the database, the
globals `config` and `AvgValue`, and traces of what the run did to the outside:
the messages passed to the Matrix client (`sent`), the lines logged by
`updateListings`, `checkPriceTrend` and `SendMatrixNotification` (`logs`), the
entries passed to `Db.FirstOrCreate` (`created`) and the number of trend
queries issued (`queries`). -/
structure World (DB F : Type) where
  Db : DB
  config : ConfigData F
  AvgValue : F
  sent : List String
  logs : List String
  created : List Entry
  queries : Nat
  deriving DecidableEq

/-- What a run gets from outside: the library functions, the clock, the
outcome of the HTTP request, and the behaviour of the database and of the
Matrix client. -/
structure Ext (DB F : Type) where
  lib : Lib
  clock : Nat → Time
  httpGet : HttpResult
  /-- The call `Db.FirstOrCreate(&entry)`: the database afterwards and its
  `Error`. -/
  FirstOrCreate : DB → Entry → DB × Option String
  /-- The query `SELECT avg ... WHERE fecha BETWEEN startDate AND endDate`
  scanned into `[]float64`: its `Error`, or the prices. -/
  Scan : DB → Time → Time → Except String (List F)
  /-- The error of `MatrixClient.SendMessageEvent` for a message body. -/
  SendMessageEvent : String → Option String

/-- The function `SendMatrixNotification` (`matrix.go`). -/
def SendMatrixNotification {DB F : Type} (E : Ext DB F) (message : String) (w : World DB F) :
    World DB F :=
  let w := { w with sent := w.sent ++ [message] }
  match E.SendMessageEvent message with
  | some err => { w with logs := w.logs ++ ["error sending matrix message %s " ++ err] }
  | none => w

/-! ## `checkPriceTrend` (`main.go`) -/

/-- The index expression `xs[i]` of Go for an `int` index. -/
def indexInt {α : Type} (xs : List α) (i : Int) : Option α :=
  if i < 0 then none else xs[i.toNat]?

/-- The loop `for i := len(prices) - 1; i >= len(prices)-14; i--` with the
value of `i` and the moving average so far. -/
def trendLoop {F : Type} [Float64 F] (prices : List F) :
    Nat → Int → VariableEWMA F → Res (VariableEWMA F)
  | 0, i, movingAverage =>
    if i ≥ (prices.length : Int) - 14 then .fuel else .ok movingAverage
  | fuel + 1, i, movingAverage =>
    if i ≥ (prices.length : Int) - 14 then
      match indexInt prices i with
      | none => .panic (indexPanic i prices.length)
      | some p => trendLoop prices fuel (i - 1) (movingAverage.Add p)
    else .ok movingAverage

/-- The function `checkPriceTrend`; `tick` is the number of readings of the
clock taken before the call. The loop is given 14 iterations, the number of
values of `i` from `len(prices) - 1` down to `len(prices) - 14`. -/
def checkPriceTrend {DB F : Type} [Float64 F] (E : Ext DB F) (tick : Nat) (w : World DB F) :
    Res F × World DB F :=
  let currentTime := E.clock tick
  let endDate := currentTime
  let startDate := E.lib.AddDate currentTime 0 0 (-29)
  let w := { w with queries := w.queries + 1 }
  match E.Scan w.Db startDate endDate with
  | .error e => (.err e, w)
  | .ok prices =>
    match trendLoop prices 14 ((prices.length : Int) - 1) (NewMovingAverage 5) with
    | .ok movingAverage =>
      let value := movingAverage.Value
      (.ok value, { w with AvgValue := value })
    | .err msg => (.err msg, w)
    | .panic msg => (.panic msg, w)
    | .fuel => (.fuel, w)

/-! ## `updateListings` (`main.go`) -/

/-- The verb `%v` on an `error` value. -/
def fmtError : Option String → String
  | none => "<nil>"
  | some msg => msg

/-- The message of `updateListings` about a failed download. -/
def downloadFailureMessage (err : Option String) : String :=
  "<h3>omiewatcher</h3><bold>error downloading data</bold> " ++ fmtError err

/-- The first branch of `updateListings`: the error is logged and reported to
the Matrix room, and the run ends. -/
def downloadFailed {DB F : Type} (E : Ext DB F) (err : Option String) (w : World DB F) :
    World DB F :=
  let w := { w with logs := w.logs ++ ["error downloading data"] }
  SendMatrixNotification E (downloadFailureMessage err) w

/-- The loop `for _, entry := range data` of `updateListings`: `some err` when
`Db.FirstOrCreate` failed on an entry, which is logged and ends the run. -/
def saveLoop {DB F : Type} (E : Ext DB F) : List Entry → World DB F → Option String × World DB F
  | [], w => (none, w)
  | entry :: rest, w =>
    let r := E.FirstOrCreate w.Db entry
    let w := { w with Db := r.1, created := w.created ++ [entry] }
    match r.2 with
    | some err => (some err, { w with logs := w.logs ++ ["error adding listings to db"] })
    | none => saveLoop E rest w

/-- The alert message of `updateListings`. -/
def alertMessage {F : Type} [Float64 F] (value : F) : String :=
  "<h3>omiewatcher</h3><p><bold>Price will hit hardcoded maximum: </bold>" ++
    Float64.fmt2 value ++ "</p>"

/-- The part of `updateListings` after a successful download with at least
one entry. -/
def updateWith {DB F : Type} [Float64 F] (E : Ext DB F) (data : List Entry) (w : World DB F) :
    Res Unit × World DB F :=
  match saveLoop E data w with
  | (some _, w) => (.ok (), w)
  | (none, w) =>
    match checkPriceTrend E (data.length + 1) w with
    | (.err _, w) => (.ok (), { w with logs := w.logs ++ ["error adding listings to db"] })
    | (.panic msg, w) => (.panic msg, w)
    | (.fuel, w) => (.fuel, w)
    | (.ok value, w) =>
      let w := if Float64.gt value w.config.MaxValue then
        SendMatrixNotification E (alertMessage value) w else w
      (.ok (), { w with logs := w.logs ++ ["scrape finished, average value " ++ Float64.fmtf value] })

/-- The function `updateListings`. -/
def updateListings {DB F : Type} [Float64 F] (E : Ext DB F) (w : World DB F) :
    Res Unit × World DB F :=
  match getData E.lib E.clock E.httpGet with
  | .panic msg => (.panic msg, w)
  | .fuel => (.fuel, w)
  | .err msg => (.ok (), downloadFailed E (some msg) w)
  | .ok data =>
    if data.length = 0 then (.ok (), downloadFailed E none w)
    else updateWith E data w

/-! ## Rows and their records, as the specification words them -/

/-- The record a data row stands for when it is read at time `now`: the row
has five fields, the fields 1, 2 and 3 are decimals once `,` is replaced by
`.`, and field 0 is a date in the form `DD/MM/YY`. -/
def recordOf (L : Lib) (now : Time) : RawRow → Option Entry
  | .fields _ [f0, f1, f2, f3, _] =>
    match L.NewFromString (ReplaceAll f1 ',' '.'), L.NewFromString (ReplaceAll f2 ',' '.'),
      L.NewFromString (ReplaceAll f3 ',' '.'), L.Parse "02/01/06" f0 with
    | some minimo, some medio, some maximo, some fecha =>
      some
        { ID := sprintfHex (L.Sum256 (bytes (f1 ++ f2 ++ f3)))
          Fecha := fecha
          Min := minimo
          Avg := medio
          Max := maximo
          CreatedAt := now }
    | _, _, _, _ => none
  | _ => none

/-- A data row is well formed when it has five fields, its fields 1, 2 and 3
are decimals once `,` is replaced by `.`, and its field 0 is a date. -/
def wellFormed (L : Lib) : RawRow → Bool
  | .fields _ [f0, f1, f2, f3, _] =>
    (L.NewFromString (ReplaceAll f1 ',' '.')).isSome &&
      (L.NewFromString (ReplaceAll f2 ',' '.')).isSome &&
      (L.NewFromString (ReplaceAll f3 ',' '.')).isSome &&
      (L.Parse "02/01/06" f0).isSome
  | _ => false

/-- The fields of a line of text that holds no quote character, as the
tokenizer of `encoding/csv` cuts them at the separator `sep`; `cur` are the
characters of the current field, last first. -/
def splitFields (sep : Char) : List Char → List Char → List String
  | [], cur => [⟨cur.reverse⟩]
  | c :: cs, cur =>
    if c = sep then ⟨cur.reverse⟩ :: splitFields sep cs [] else splitFields sep cs (c :: cur)

/-- The record the tokenizer finds in a line of text without quotes, with
`;` as separator. -/
def RawRow.ofLine (line : Nat) (text : String) : RawRow :=
  .fields line (splitFields ';' text.data [])

/-- The records kept by the reader from the data rows: those with exactly
five fields. -/
def keep : List RawRow → List (List String)
  | [] => []
  | .fields _ fs :: rest => if fs.length = 5 then fs :: keep rest else keep rest
  | .broken _ _ _ :: rest => keep rest

/-- The entries of the data rows `rows`, the first of them stamped with the
reading `clock tick`. -/
def recordsFrom (L : Lib) (clock : Nat → Time) : Nat → List RawRow → List Entry
  | _, [] => []
  | tick, row :: rest =>
    match recordOf L (clock tick) row with
    | some e => e :: recordsFrom L clock (tick + 1) rest
    | none => recordsFrom L clock tick rest

/-! ## Sample rows -/

/-- The digest of the 15 bytes `40,0045,5050,00` in hexadecimal. -/
def sampleID : String := "5b215bccd0b3d4c725408f4380926b27e0389b30ab82b3edbd91c9d9d1175832"

/-- The entry of the row `01/05/23;40,00;45,50;50,00;extra` read at `now`. -/
def sampleEntry (now : Time) : Entry :=
  { ID := sampleID, Fecha := ⟨2023, 5, 1, 0⟩, Min := ⟨4000, -2⟩, Avg := ⟨4550, -2⟩,
    Max := ⟨5000, -2⟩, CreatedAt := now }

/-- The entry of a row of 8 June 2023 with the prices of `sampleEntry`. -/
def juneEntry (now : Time) : Entry :=
  { ID := sampleID, Fecha := ⟨2023, 6, 8, 0⟩, Min := ⟨4000, -2⟩, Avg := ⟨4550, -2⟩,
    Max := ⟨5000, -2⟩, CreatedAt := now }

/-- A clock for the examples: reading `n` is `n` nanoseconds after 07:30 UTC
on 2 May 2023. -/
def sampleClock (n : Nat) : Time := ⟨2023, 5, 2, 27000000000000 + n⟩

/-- A body of two header rows and six data rows, four of them malformed: a
row of two fields, a row whose minimum is not a decimal, a row whose date is
not a date, and a row with a quoting error. -/
def sampleBody : List RawRow :=
  [ .ofLine 1 "OMIE - Mercado de electricidad;Fecha Emision :01/05/2023 - 13:07;;08/06/2023;",
    .ofLine 2 "Fecha;Minimo;Medio;Maximo;",
    .ofLine 3 "01/05/23;40,00;45,50;50,00;extra",
    .ofLine 4 "02/05/23;41,00",
    .ofLine 5 "03/05/23;n/a;45,50;50,00;",
    .ofLine 6 "2023-05-04;40,00;45,50;50,00;",
    .broken 7 9 "bare \" in non-quoted-field",
    .ofLine 8 "08/06/23;40,00;45,50;50,00;" ]

/-! ## An interpretation of `float64` and a test double of the collaborators -/

/-- The digits of `n` in base 10, padded with zeros on the left to `width`
characters. -/
def padDigits (width n : Nat) : String :=
  let ds := toString n
  ⟨List.replicate (width - ds.length) '0' ++ ds.data⟩

/-- A rational number in fixed notation with `digits` digits after the point,
rounded to the nearest and, half way between two, to the even one, as the
verbs of Go round the exact value of a `float64`. -/
def fmtFixed (digits : Nat) (x : ℚ) : String :=
  let a : ℚ := if x < 0 then -x else x
  let q : ℚ := a * 10 ^ digits
  let lo := q.floor.toNat
  let scaled :=
    if q - lo < 1 / 2 then lo
    else if 1 / 2 < q - lo then lo + 1
    else if lo % 2 = 0 then lo else lo + 1
  (if x < 0 then "-" else "") ++ toString (scaled / 10 ^ digits) ++ "." ++
    padDigits digits (scaled % 10 ^ digits)

/-- Exact rational arithmetic as an interpretation of the operations on
`float64`; it is used to run the trend code on concrete prices. It has no
rounding of the arithmetic, no infinities and no NaN. -/
instance : Float64 ℚ where
  lit n := (n : ℚ)
  gt x y := decide (y < x)
  fmt2 := fmtFixed 2
  fmtf := fmtFixed 6

/-- A test double of the collaborators: the library model `goLib`, the clock
`sampleClock`, a given HTTP outcome, a database held as the list of its
entries in which `FirstOrCreate` fails as `save` says and otherwise inserts an
entry whose `ID` is new, a trend query with a given outcome, and a Matrix
client that delivers every message. -/
def sampleExt (http : HttpResult) (save : Entry → Option String)
    (scan : Except String (List ℚ)) : Ext (List Entry) ℚ where
  lib := goLib
  clock := sampleClock
  httpGet := http
  FirstOrCreate db e :=
    match save e with
    | some err => (db, some err)
    | none => (if db.any fun x => x.ID = e.ID then db else db ++ [e], none)
  Scan _ _ _ := scan
  SendMessageEvent _ := none

/-- The state of a process that has just started on an empty database, with
the default threshold 130. -/
def sampleWorld : World (List Entry) ℚ :=
  { Db := [], config := ⟨130⟩, AvgValue := 0, sent := [], logs := [], created := [],
    queries := 0 }

/-- A body of two header rows and the sample row. -/
def oneRowBody : List RawRow :=
  [.ofLine 1 "header", .ofLine 2 "Fecha;Minimo;Medio;Maximo;",
    .ofLine 3 "01/05/23;40,00;45,50;50,00;extra"]

/-- A body of two header rows and four malformed data rows. -/
def malformedBody : List RawRow :=
  [ .ofLine 1 "header", .ofLine 2 "Fecha;Minimo;Medio;Maximo;",
    .ofLine 3 "02/05/23;41,00",
    .ofLine 4 "03/05/23;n/a;45,50;50,00;",
    .ofLine 5 "2023-05-04;40,00;45,50;50,00;",
    .broken 6 9 "bare \" in non-quoted-field" ]

/-- The state `sampleWorld` after the sample entry was saved. -/
def savedWorld : World (List Entry) ℚ :=
  { sampleWorld with
    Db := [sampleEntry (sampleClock 1)], created := [sampleEntry (sampleClock 1)] }

/-- The state `savedWorld` after a trend query that gave the trend `value`. -/
def trendWorld (value : ℚ) : World (List Entry) ℚ :=
  { savedWorld with queries := 1, AvgValue := value }

/-- The entry of the row `01/05/23;1;23;4;` read at `now`; its `ID` is the
digest of the four bytes `1234`. -/
def splitEntryA (now : Time) : Entry :=
  { ID := "03ac674216f3e15c761ee1a5e255f067953623c8b388b4459e13f978d7c846f4"
    Fecha := ⟨2023, 5, 1, 0⟩, Min := ⟨1, 0⟩, Avg := ⟨23, 0⟩, Max := ⟨4, 0⟩, CreatedAt := now }

/-- The entry of the row `02/05/23;12;3;4;` read at `now`, with the `ID` of
`splitEntryA`. -/
def splitEntryB (now : Time) : Entry :=
  { ID := "03ac674216f3e15c761ee1a5e255f067953623c8b388b4459e13f978d7c846f4"
    Fecha := ⟨2023, 5, 2, 0⟩, Min := ⟨12, 0⟩, Avg := ⟨3, 0⟩, Max := ⟨4, 0⟩, CreatedAt := now }

/-! # Properties -/

/-! ## The reference model of SHA-256 -/

/-- The list `primes64` holds the numbers from 2 to 311 that have no proper
divisor from 2 to 17, which are the primes below 312. -/
theorem primes64_eq :
    primes64 = (List.range 312).filter fun n =>
      2 ≤ n ∧ (List.range 18).all fun d => d < 2 ∨ n ≤ d ∨ n % d ≠ 0 := by
  decide!

/-- The digest of the three bytes `abc` is the one FIPS 180-4 gives. -/
theorem sha256Sum256_abc :
    sprintfHex (sha256Sum256 (bytes "abc"))
      = "ba7816bf8f01cfea414140de5dae2223b00361a396177a9cb410ff61f20015ad" := by
  decide!

/-- The digest of a message of two blocks, with characters of two and three
bytes. -/
theorem sha256Sum256_two_blocks :
    sprintfHex (sha256Sum256 (bytes
        "abcdbcdecdefdefgefghfghighijhijkijkljklmklmnlmnomnopnopq€é"))
      = "6a4876d51473b2e1800b4e8b7444540e0f41567eb0d1f8487d12b51c1cea32ee" := by
  decide!


/-! ## The reading loop -/

theorem fieldCount_ne_EOF (line : Nat) : (ReadErr.FieldCount line).Error ≠ "EOF" := by
  intro h
  have h2 := congrArg String.data h
  simp [ReadErr.Error, String.data_append] at h2

theorem syntax_ne_EOF (line column : Nat) (reason : String) :
    (ReadErr.Syntax line column reason).Error ≠ "EOF" := by
  intro h
  have h2 := congrArg String.data h
  simp [ReadErr.Error, String.data_append] at h2

/-- Past the two header rows the loop ends at the end of the input with the
five-field records appended, given more iterations than rows. -/
theorem readLoop_data (rows : List RawRow) :
    ∀ (fuel lineNum : Nat) (lines : List (List String)), 2 ≤ lineNum → rows.length < fuel →
      readLoop fuel { FieldsPerRecord := 5, rest := rows, failure := none } lineNum lines
        = some (lines ++ keep rows) := by
  induction rows with
  | nil =>
    intro fuel lineNum lines h2 hf
    obtain ⟨fuel, rfl⟩ : ∃ k, fuel = k + 1 := ⟨fuel - 1, by simp at hf; omega⟩
    have h3 : ¬ (lineNum + 1 < 3) := by omega
    simp [readLoop, Reader.Read, h3, ReadErr.Error, keep]
  | cons row rest ih =>
    intro fuel lineNum lines h2 hf
    obtain ⟨fuel, rfl⟩ : ∃ k, fuel = k + 1 := ⟨fuel - 1, by simp at hf; omega⟩
    have h3 : ¬ (lineNum + 1 < 3) := by omega
    have hf2 : rest.length < fuel := by simp at hf; omega
    cases row with
    | fields line fs =>
      by_cases h5 : fs.length = 5
      · simp [readLoop, Reader.Read, h3, h5, keep, ih fuel (lineNum + 1) _ (by omega) hf2]
      · simp [readLoop, Reader.Read, h3, h5, keep, fieldCount_ne_EOF,
          ih fuel (lineNum + 1) _ (by omega) hf2]
    | broken line column reason =>
      simp [readLoop, Reader.Read, h3, keep, syntax_ne_EOF,
        ih fuel (lineNum + 1) _ (by omega) hf2]

/-- A call of `Read` uses up the first record, whatever it is. -/
theorem read_rest (rows : List RawRow) :
    (Reader.Read { FieldsPerRecord := 5, rest := rows, failure := none }).2
      = { FieldsPerRecord := 5, rest := rows.tail, failure := none } := by
  cases rows with
  | nil => rfl
  | cons row rest =>
    cases row with
    | fields line fs => by_cases h5 : fs.length = 5 <;> simp [Reader.Read, h5]
    | broken line column reason => rfl

/-- The reading loop of `getData` ends for every body, and returns the
five-field records among the rows after the first two. -/
theorem readLoop_body (body : List RawRow) :
    readLoop (body.length + 3) { FieldsPerRecord := 5, rest := body, failure := none } 0 []
      = some (keep (body.drop 2)) := by
  have h1 : readLoop (body.length + 3) { FieldsPerRecord := 5, rest := body, failure := none } 0 []
      = readLoop (body.length + 1) { FieldsPerRecord := 5, rest := body.tail.tail, failure := none } 2 [] := by
    simp only [readLoop]
    simp [read_rest]
  rw [h1, readLoop_data _ _ _ _ (le_refl 2) (by simp; omega)]
  cases body with
  | nil => rfl
  | cons a t => cases t <;> rfl

/-! ## The parsing loop -/

/-- On a line of five fields the loop body never panics and appends the
record of the row, if it has one. -/
theorem parseLine_five (L : Lib) (now : Time) (line : Nat) (f0 f1 f2 f3 f4 : String) :
    parseLine L now [f0, f1, f2, f3, f4]
      = .ok (recordOf L now (.fields line [f0, f1, f2, f3, f4])) := by
  simp only [parseLine, index, recordOf, List.getElem?_cons_succ, List.getElem?_cons_zero]
  cases L.NewFromString (ReplaceAll f1 ',' '.') <;>
    cases L.NewFromString (ReplaceAll f2 ',' '.') <;>
    cases L.NewFromString (ReplaceAll f3 ',' '.') <;>
    cases L.Parse "02/01/06" f0 <;> rfl

/-- A list of length five is five elements. -/
theorem length_five {α : Type} (xs : List α) (h : xs.length = 5) :
    ∃ a b c d e, xs = [a, b, c, d, e] := by
  match xs, h with
  | [a, b, c, d, e], _ => exact ⟨a, b, c, d, e, rfl⟩

/-- A row whose number of fields is not five has no record. -/
theorem recordOf_length (L : Lib) (now : Time) (line : Nat) (fs : List String)
    (h : fs.length ≠ 5) : recordOf L now (.fields line fs) = none := by
  match fs, h with
  | [], _ => rfl
  | [_], _ => rfl
  | [_, _], _ => rfl
  | [_, _, _], _ => rfl
  | [_, _, _, _], _ => rfl
  | [_, _, _, _, _], h => exact absurd rfl h
  | _ :: _ :: _ :: _ :: _ :: _ :: _, _ => rfl

/-- The parsing loop on the records the reader kept: no panic, and the entries
appended are the records of the rows. -/
theorem parseLoop_keep (L : Lib) (clock : Nat → Time) (rows : List RawRow) :
    ∀ (tick : Nat) (entries : List Entry),
      parseLoop L clock (keep rows) tick entries
        = .ok (entries ++ recordsFrom L clock tick rows) := by
  induction rows with
  | nil => intro tick entries; simp [keep, parseLoop, recordsFrom]
  | cons row rest ih =>
    intro tick entries
    cases row with
    | fields line fs =>
      by_cases h5 : fs.length = 5
      · obtain ⟨f0, f1, f2, f3, f4, rfl⟩ := length_five fs h5
        simp only [keep, List.length_cons, List.length_nil, if_true, parseLoop,
          parseLine_five L _ line, recordsFrom]
        cases recordOf L (clock tick) (.fields line [f0, f1, f2, f3, f4]) with
        | none => simp [ih]
        | some e => simp [ih]
      · simp [keep, h5, recordsFrom, recordOf_length L _ line fs h5, ih]
    | broken line column reason => simp [keep, recordsFrom, recordOf, ih]

/-- What `getData` returns for a response with status 200: the loops end
without a panic for every body, and the entries are the records of the rows
after the first two. -/
theorem getData_response (L : Lib) (clock : Nat → Time) (body : List RawRow) :
    getData L clock (.response 200 body) = .ok (recordsFrom L clock 1 (body.drop 2)) := by
  simp [getData, getDataFuel, getDataBody, HttpResult.rows, readLoop_body, parseLoop_keep]

/-- Whether a row has a record does not depend on the clock. -/
theorem wellFormed_length (L : Lib) (line : Nat) (fs : List String) (h : fs.length ≠ 5) :
    wellFormed L (.fields line fs) = false := by
  match fs, h with
  | [], _ => rfl
  | [_], _ => rfl
  | [_, _], _ => rfl
  | [_, _, _], _ => rfl
  | [_, _, _, _], _ => rfl
  | [_, _, _, _, _], h => exact absurd rfl h
  | _ :: _ :: _ :: _ :: _ :: _ :: _, _ => rfl

/-- A row has a record exactly when it is well formed, whatever the clock. -/
theorem recordOf_isSome (L : Lib) (now : Time) (row : RawRow) :
    (recordOf L now row).isSome = wellFormed L row := by
  cases row with
  | broken line column reason => rfl
  | fields line fs =>
    by_cases h5 : fs.length = 5
    · obtain ⟨f0, f1, f2, f3, f4, rfl⟩ := length_five fs h5
      simp only [recordOf, wellFormed]
      cases L.NewFromString (ReplaceAll f1 ',' '.') <;>
        cases L.NewFromString (ReplaceAll f2 ',' '.') <;>
        cases L.NewFromString (ReplaceAll f3 ',' '.') <;>
        cases L.Parse "02/01/06" f0 <;> rfl
    · simp [recordOf_length L _ line fs h5, wellFormed_length L line fs h5]

/-- Rows that are not well formed leave no trace in the entries. -/
theorem recordsFrom_filter (L : Lib) (clock : Nat → Time) (rows : List RawRow) :
    ∀ tick : Nat, recordsFrom L clock tick (rows.filter (wellFormed L))
      = recordsFrom L clock tick rows := by
  induction rows with
  | nil => intro tick; rfl
  | cons row rest ih =>
    intro tick
    have hs := recordOf_isSome L (clock tick) row
    cases hr : recordOf L (clock tick) row with
    | none =>
      have hw : wellFormed L row = false := by rw [← hs, hr]; rfl
      simp [List.filter_cons, hw, recordsFrom, hr, ih]
    | some e =>
      have hw : wellFormed L row = true := by rw [← hs, hr]; rfl
      simp [List.filter_cons, hw, recordsFrom, hr, ih]

/-- The entry at position `i` is the record of the well-formed row at
position `i`, stamped with reading `tick + i` of the clock. -/
theorem recordsFrom_getElem (L : Lib) (clock : Nat → Time) (rows : List RawRow) :
    ∀ (tick i : Nat), (recordsFrom L clock tick rows)[i]?
      = ((rows.filter (wellFormed L))[i]?).bind (recordOf L (clock (tick + i))) := by
  induction rows with
  | nil => intro tick i; simp [recordsFrom]
  | cons row rest ih =>
    intro tick i
    have hs := recordOf_isSome L (clock tick) row
    cases hr : recordOf L (clock tick) row with
    | none =>
      have hw : wellFormed L row = false := by rw [← hs, hr]; rfl
      simp [List.filter_cons, hw, recordsFrom, hr, ih]
    | some e =>
      have hw : wellFormed L row = true := by rw [← hs, hr]; rfl
      cases i with
      | zero => simp [List.filter_cons, hw, recordsFrom, hr]
      | succ j =>
        simp [List.filter_cons, hw, recordsFrom, hr, ih]
        have : tick + 1 + j = tick + (j + 1) := by omega
        rw [this]

/-! ## The code on the sample bodies -/

/-- The entries of the sample body: the two well-formed rows, in order. -/
theorem getData_sampleBody :
    getData goLib sampleClock (.response 200 sampleBody)
      = .ok [sampleEntry (sampleClock 1), juneEntry (sampleClock 2)] := by
  decide!

/-- The entry of the body with the sample row alone. -/
theorem getData_oneRowBody :
    getData goLib sampleClock (.response 200 oneRowBody) = .ok [sampleEntry (sampleClock 1)] := by
  decide!

/-- The entry of the row with the prices `1`, `23`, `4`. -/
theorem parseLine_splitA :
    parseLine goLib (sampleClock 1) ["01/05/23", "1", "23", "4", ""]
      = .ok (some (splitEntryA (sampleClock 1))) := by
  decide!

/-- The entry of the row with the prices `12`, `3`, `4`. -/
theorem parseLine_splitB :
    parseLine goLib (sampleClock 2) ["02/05/23", "12", "3", "4", ""]
      = .ok (some (splitEntryB (sampleClock 2))) := by
  decide!

/-! ## Claims about `getData` -/

/-- When the loop body appends an entry, the line has the fields 0 to 3, the
parsers accept them, and the entry is built from them. -/
theorem parseLine_some (L : Lib) (now : Time) (fs : List String) (e : Entry)
    (h : parseLine L now fs = .ok (some e)) :
    ∃ f0 f1 f2 f3 minimo medio maximo fecha,
      fs[0]? = some f0 ∧ fs[1]? = some f1 ∧ fs[2]? = some f2 ∧ fs[3]? = some f3 ∧
      L.NewFromString (ReplaceAll f1 ',' '.') = some minimo ∧
      L.NewFromString (ReplaceAll f2 ',' '.') = some medio ∧
      L.NewFromString (ReplaceAll f3 ',' '.') = some maximo ∧
      L.Parse "02/01/06" f0 = some fecha ∧
      e = { ID := sprintfHex (L.Sum256 (bytes (f1 ++ f2 ++ f3))), Fecha := fecha,
            Min := minimo, Avg := medio, Max := maximo, CreatedAt := now } := by
  simp only [parseLine, index] at h
  cases hf1 : fs[1]? with
  | none => simp [hf1] at h
  | some f1 =>
  cases hm1 : L.NewFromString (ReplaceAll f1 ',' '.') with
  | none => simp [hf1, hm1] at h
  | some minimo =>
  cases hf2 : fs[2]? with
  | none => simp [hf1, hm1, hf2] at h
  | some f2 =>
  cases hm2 : L.NewFromString (ReplaceAll f2 ',' '.') with
  | none => simp [hf1, hm1, hf2, hm2] at h
  | some medio =>
  cases hf3 : fs[3]? with
  | none => simp [hf1, hm1, hf2, hm2, hf3] at h
  | some f3 =>
  cases hm3 : L.NewFromString (ReplaceAll f3 ',' '.') with
  | none => simp [hf1, hm1, hf2, hm2, hf3, hm3] at h
  | some maximo =>
  cases hf0 : fs[0]? with
  | none => simp [hf1, hm1, hf2, hm2, hf3, hm3, hf0] at h
  | some f0 =>
  cases hd : L.Parse "02/01/06" f0 with
  | none => simp [hf1, hm1, hf2, hm2, hf3, hm3, hf0, hd] at h
  | some fecha =>
    simp only [hf1, hm1, hf2, hm2, hf3, hm3, hf0, hd, Res.ok.injEq, Option.some.injEq] at h
    exact ⟨f0, f1, f2, f3, minimo, medio, maximo, fecha, rfl, rfl, rfl, rfl, hm1, hm2, hm3, hd,
      h.symm⟩

/-- C1: in the normalisation step of `getData` the `ID` of an entry is a
function of the raw strings of the fields 1, 2 and 3 only: two lines that are
both parsed and carry the same three strings give entries with the same `ID`,
whatever the other fields, the lengths of the lines and the clock are. -/
theorem parseLine_ID_of_triple (L : Lib) (now now' : Time) (fs fs' : List String)
    (e e' : Entry)
    (h1 : fs[1]? = fs'[1]?) (h2 : fs[2]? = fs'[2]?) (h3 : fs[3]? = fs'[3]?)
    (h : parseLine L now fs = .ok (some e)) (h' : parseLine L now' fs' = .ok (some e')) :
    e.ID = e'.ID := by
  obtain ⟨f0, f1, f2, f3, _, _, _, _, _, g1, g2, g3, _, _, _, _, rfl⟩ :=
    parseLine_some L now fs e h
  obtain ⟨f0', f1', f2', f3', _, _, _, _, _, g1', g2', g3', _, _, _, _, rfl⟩ :=
    parseLine_some L now' fs' e' h'
  rw [g1, g1'] at h1
  rw [g2, g2'] at h2
  rw [g3, g3'] at h3
  simp only [Option.some.injEq] at h1 h2 h3
  subst h1 h2 h3
  rfl

/-- C1, on two rows of different dates and fifth fields with the same raw
prices. -/
theorem parseLine_ID_of_triple_witness :
    parseLine goLib ⟨2023, 5, 2, 27000⟩ ["01/05/23", "40,00", "45,50", "50,00", "extra"]
        = .ok (some (sampleEntry ⟨2023, 5, 2, 27000⟩)) ∧
      parseLine goLib ⟨2023, 6, 9, 100⟩ ["08/06/23", "40,00", "45,50", "50,00", ""]
        = .ok (some (juneEntry ⟨2023, 6, 9, 100⟩)) ∧
      (sampleEntry ⟨2023, 5, 2, 27000⟩).ID = (juneEntry ⟨2023, 6, 9, 100⟩).ID :=
  have a : parseLine goLib ⟨2023, 5, 2, 27000⟩ ["01/05/23", "40,00", "45,50", "50,00", "extra"]
      = .ok (some (sampleEntry ⟨2023, 5, 2, 27000⟩)) := by decide!
  have b : parseLine goLib ⟨2023, 6, 9, 100⟩ ["08/06/23", "40,00", "45,50", "50,00", ""]
      = .ok (some (juneEntry ⟨2023, 6, 9, 100⟩)) := by decide!
  ⟨a, b, parseLine_ID_of_triple goLib ⟨2023, 5, 2, 27000⟩ ⟨2023, 6, 9, 100⟩
    ["01/05/23", "40,00", "45,50", "50,00", "extra"] ["08/06/23", "40,00", "45,50", "50,00", ""]
    (sampleEntry ⟨2023, 5, 2, 27000⟩) (juneEntry ⟨2023, 6, 9, 100⟩) rfl rfl rfl a b⟩

/-- As many entries as well-formed rows. -/
theorem recordsFrom_length (L : Lib) (clock : Nat → Time) (rows : List RawRow) :
    ∀ tick : Nat, (recordsFrom L clock tick rows).length
      = (rows.filter (wellFormed L)).length := by
  induction rows with
  | nil => intro tick; rfl
  | cons row rest ih =>
    intro tick
    have hs := recordOf_isSome L (clock tick) row
    cases hr : recordOf L (clock tick) row with
    | none =>
      have hw : wellFormed L row = false := by rw [← hs, hr]; rfl
      simp [List.filter_cons, hw, recordsFrom, hr, ih]
    | some e =>
      have hw : wellFormed L row = true := by rw [← hs, hr]; rfl
      simp [List.filter_cons, hw, recordsFrom, hr, ih]

/-- C2: for every list of data rows after the two header rows, `getData`
returns normally, and what it returns is what it returns when the malformed
rows are absent: one entry per well-formed row, in the order of the rows, the
entry at position `i` being the record of the well-formed row at position `i`
(stamped with reading `i + 1` of the clock). -/
theorem getData_skips_malformed (L : Lib) (clock : Nat → Time) (h1 h2 : RawRow)
    (rows : List RawRow) :
    getData L clock (.response 200 (h1 :: h2 :: rows))
        = getData L clock (.response 200 (h1 :: h2 :: rows.filter (wellFormed L))) ∧
      ∃ es, getData L clock (.response 200 (h1 :: h2 :: rows)) = .ok es ∧
        es.length = (rows.filter (wellFormed L)).length ∧
        ∀ i, es[i]? = ((rows.filter (wellFormed L))[i]?).bind (recordOf L (clock (i + 1))) := by
  refine ⟨?_, recordsFrom L clock 1 rows, ?_, ?_, ?_⟩
  · simp [getData_response, recordsFrom_filter]
  · simp [getData_response]
  · exact recordsFrom_length L clock rows 1
  · intro i
    rw [recordsFrom_getElem, Nat.add_comm]

/-- C2, on a body with four malformed rows between two well-formed ones. -/
theorem getData_skips_malformed_witness :
    getData goLib sampleClock (.response 200 sampleBody)
        = .ok [sampleEntry (sampleClock 1), juneEntry (sampleClock 2)] ∧
      (getData goLib sampleClock (.response 200 sampleBody)
        = getData goLib sampleClock (.response 200
            (sampleBody.take 2 ++ (sampleBody.drop 2).filter (wellFormed goLib)))) :=
  ⟨getData_sampleBody,
    (getData_skips_malformed goLib sampleClock (.ofLine 1
        "OMIE - Mercado de electricidad;Fecha Emision :01/05/2023 - 13:07;;08/06/2023;")
      (.ofLine 2 "Fecha;Minimo;Medio;Maximo;") (sampleBody.drop 2)).1⟩

/-- C3: for two header rows followed by one data row of five fields whose
date and prices are accepted by the parsers, `getData` returns exactly one
entry: its `Fecha` is the date read from field 0, its `Min`, `Avg` and `Max`
the decimals read from the fields 1, 2 and 3 with `,` replaced by `.`, and its
`ID` the lowercase hexadecimal SHA-256 digest of the bytes of the three raw
strings joined in the order min, avg, max. -/
theorem getData_single_row (L : Lib) (clock : Nat → Time) (h1 h2 : RawRow) (n : Nat)
    (f0 f1 f2 f3 f4 : String) (minimo medio maximo : Decimal) (fecha : Time)
    (hmin : L.NewFromString (ReplaceAll f1 ',' '.') = some minimo)
    (havg : L.NewFromString (ReplaceAll f2 ',' '.') = some medio)
    (hmax : L.NewFromString (ReplaceAll f3 ',' '.') = some maximo)
    (hdate : L.Parse "02/01/06" f0 = some fecha) :
    getData L clock (.response 200 [h1, h2, .fields n [f0, f1, f2, f3, f4]])
      = .ok [{ ID := sprintfHex (L.Sum256 (bytes (f1 ++ f2 ++ f3)))
               Fecha := fecha
               Min := minimo
               Avg := medio
               Max := maximo
               CreatedAt := clock 1 }] := by
  simp [getData_response, recordsFrom, recordOf, hmin, havg, hmax, hdate]

/-- C3, on the row `01/05/23;40,00;45,50;50,00;extra`: the date is
2023-05-01, the prices are 40.00, 45.50 and 50.00, and the `ID` is the digest
of `40,0045,5050,00`. -/
theorem getData_single_row_witness :
    RawRow.ofLine 3 "01/05/23;40,00;45,50;50,00;extra"
        = .fields 3 ["01/05/23", "40,00", "45,50", "50,00", "extra"] ∧
      goLib.NewFromString (ReplaceAll "40,00" ',' '.') = some ⟨4000, -2⟩ ∧
      goLib.NewFromString (ReplaceAll "45,50" ',' '.') = some ⟨4550, -2⟩ ∧
      goLib.NewFromString (ReplaceAll "50,00" ',' '.') = some ⟨5000, -2⟩ ∧
      goLib.Parse "02/01/06" "01/05/23" = some ⟨2023, 5, 1, 0⟩ ∧
      ((⟨4000, -2⟩ : Decimal).toRat = 40 ∧ (⟨4550, -2⟩ : Decimal).toRat = 45.5 ∧
        (⟨5000, -2⟩ : Decimal).toRat = 50) ∧
      sprintfHex (goLib.Sum256 (bytes "40,0045,5050,00"))
        = "5b215bccd0b3d4c725408f4380926b27e0389b30ab82b3edbd91c9d9d1175832" ∧
      getData goLib sampleClock (.response 200
          [.ofLine 1 "header", .ofLine 2 "Fecha;Minimo;Medio;Maximo;",
            .fields 3 ["01/05/23", "40,00", "45,50", "50,00", "extra"]])
        = .ok [{ ID := sprintfHex (goLib.Sum256 (bytes ("40,00" ++ "45,50" ++ "50,00")))
                 Fecha := ⟨2023, 5, 1, 0⟩
                 Min := ⟨4000, -2⟩
                 Avg := ⟨4550, -2⟩
                 Max := ⟨5000, -2⟩
                 CreatedAt := sampleClock 1 }] :=
  ⟨by decide, by decide, by decide, by decide, by decide,
    ⟨by norm_num [Decimal.toRat], by norm_num [Decimal.toRat], by norm_num [Decimal.toRat]⟩,
    by decide!,
    getData_single_row goLib sampleClock (.ofLine 1 "header")
      (.ofLine 2 "Fecha;Minimo;Medio;Maximo;") 3 "01/05/23" "40,00" "45,50" "50,00" "extra"
      ⟨4000, -2⟩ ⟨4550, -2⟩ ⟨5000, -2⟩ ⟨2023, 5, 1, 0⟩
      (by decide) (by decide) (by decide) (by decide)⟩

/-- For a body that ends with `io.EOF` the first two rows are dropped
whatever they are: the loops of `getData` end without a panic, replacing the
first two rows by any other two rows does not change the result, and a body of
fewer than three rows gives no entry. -/
theorem getData_complete_body (L : Lib) (clock : Nat → Time) (body : List RawRow) :
    (∃ es, getData L clock (.response 200 body) = .ok es) ∧
      (∀ r1 r2 r1' r2' rest, body = r1 :: r2 :: rest →
        getData L clock (.response 200 body)
          = getData L clock (.response 200 (r1' :: r2' :: rest))) ∧
      (body.length < 3 → getData L clock (.response 200 body) = .ok []) := by
  refine ⟨⟨_, getData_response L clock body⟩, ?_, ?_⟩
  · intro r1 r2 r1' r2' rest hb
    subst hb
    simp [getData_response]
  · intro hlen
    rw [getData_response]
    match body, hlen with
    | [], _ => rfl
    | [_], _ => rfl
    | [_, _], _ => rfl

/-- When the body breaks off with an error whose text is not `EOF`, the
reading loop does not end within any number of iterations: past the records,
every call of `Read` returns that error, which is logged and skipped. -/
theorem readLoop_cutShort (msg : String) (hmsg : msg ≠ "EOF") :
    ∀ (fuel : Nat) (rows : List RawRow) (lineNum : Nat) (lines : List (List String)),
      readLoop fuel { FieldsPerRecord := 5, rest := rows, failure := some msg } lineNum lines
        = none := by
  intro fuel
  induction fuel with
  | zero => intro rows lineNum lines; rfl
  | succ fuel ih =>
    intro rows lineNum lines
    cases rows with
    | nil =>
      by_cases h3 : lineNum + 1 < 3
      · simp [readLoop, Reader.Read, h3, ih]
      · simp [readLoop, Reader.Read, h3, ReadErr.Error, hmsg, ih]
    | cons row rest =>
      cases row with
      | fields line fs =>
        by_cases h3 : lineNum + 1 < 3 <;> by_cases h5 : fs.length = 5 <;>
          simp [readLoop, Reader.Read, h3, h5, fieldCount_ne_EOF, ih]
      | broken line column reason =>
        by_cases h3 : lineNum + 1 < 3 <;>
          simp [readLoop, Reader.Read, h3, syntax_ne_EOF, ih]

/-- C9 (where the code departs from the claim): when the body of a response
with status 200 breaks off, after any number of rows and so also after fewer
than three, the reading loop of `getData` never ends: the loop leaves only on
an error with the text `EOF`, and past the rows every call of `Read` returns
the error of the underlying reader, whose text is another one. Whatever the
bound on the number of iterations, `getData` does not return. -/
theorem getData_cutShort_never_returns (fuel : Nat) (L : Lib) (clock : Nat → Time)
    (body : List RawRow) (msg : String) (hmsg : msg ≠ "EOF") :
    getDataFuel fuel L clock (.cutShort 200 body msg) = .fuel ∧
      getData L clock (.cutShort 200 body msg) = .fuel := by
  constructor
  · simp [getDataFuel, getDataBody, readLoop_cutShort msg hmsg]
  · simp [getData, getDataFuel, getDataBody, readLoop_cutShort msg hmsg]

/-- C9, on a body that breaks off before its first row and on one that
breaks off after two rows, with the error `unexpected EOF`; the same rows
followed by `io.EOF` give no entry. -/
theorem getData_cutShort_never_returns_witness :
    (getDataFuel 1000000 goLib sampleClock (.cutShort 200 [] "unexpected EOF") = .fuel ∧
        getData goLib sampleClock (.cutShort 200 [] "unexpected EOF") = .fuel) ∧
      (getDataFuel 1000000 goLib sampleClock (.cutShort 200 (sampleBody.take 2) "unexpected EOF")
          = .fuel ∧
        getData goLib sampleClock (.cutShort 200 (sampleBody.take 2) "unexpected EOF") = .fuel) ∧
      getData goLib sampleClock (.response 200 []) = .ok [] ∧
      getData goLib sampleClock (.response 200 (sampleBody.take 2)) = .ok [] :=
  ⟨getData_cutShort_never_returns 1000000 goLib sampleClock [] "unexpected EOF" (by decide),
    getData_cutShort_never_returns 1000000 goLib sampleClock (sampleBody.take 2)
      "unexpected EOF" (by decide),
    (getData_complete_body goLib sampleClock []).2.2 (by decide),
    (getData_complete_body goLib sampleClock (sampleBody.take 2)).2.2 (by decide)⟩

/-- C10: the `ID` does not keep the three fields apart. Two lines that are
both parsed and whose raw strings of the fields 1, 2 and 3 join to the same
string get the same `ID`; and the rows with the fields `1`, `23`, `4` and
`12`, `3`, `4` are both parsed, to entries that differ in `Min` and in `Avg`
as numbers and have the same `ID`. -/
theorem parseLine_ID_of_concatenation :
    (∀ (L : Lib) (now now' : Time) (f0 f1 f2 f3 f4 g0 g1 g2 g3 g4 : String) (e e' : Entry),
        parseLine L now [f0, f1, f2, f3, f4] = .ok (some e) →
        parseLine L now' [g0, g1, g2, g3, g4] = .ok (some e') →
        f1 ++ f2 ++ f3 = g1 ++ g2 ++ g3 → e.ID = e'.ID) ∧
      ∃ e e' : Entry,
        parseLine goLib (sampleClock 1) ["01/05/23", "1", "23", "4", ""] = .ok (some e) ∧
        parseLine goLib (sampleClock 2) ["02/05/23", "12", "3", "4", ""] = .ok (some e') ∧
        e.Min.toRat ≠ e'.Min.toRat ∧ e.Avg.toRat ≠ e'.Avg.toRat ∧ e.ID = e'.ID := by
  constructor
  · intro L now now' f0 f1 f2 f3 f4 g0 g1 g2 g3 g4 e e' h h' hcat
    obtain ⟨_, _, _, _, _, _, _, _, _, a1, a2, a3, _, _, _, _, rfl⟩ :=
      parseLine_some L now _ e h
    obtain ⟨_, _, _, _, _, _, _, _, _, b1, b2, b3, _, _, _, _, rfl⟩ :=
      parseLine_some L now' _ e' h'
    simp only [List.getElem?_cons_succ, List.getElem?_cons_zero, Option.some.injEq] at a1 a2 a3 b1 b2 b3
    subst a1 a2 a3 b1 b2 b3
    simp only [hcat]
  · refine ⟨splitEntryA (sampleClock 1), splitEntryB (sampleClock 2), parseLine_splitA,
      parseLine_splitB, ?_, ?_, rfl⟩
    · norm_num [Decimal.toRat, splitEntryA, splitEntryB]
    · norm_num [Decimal.toRat, splitEntryA, splitEntryB]

/-- C10, on the rows with the prices `1`, `23`, `4` and `12`, `3`, `4`. -/
theorem parseLine_ID_of_concatenation_witness :
    (splitEntryA (sampleClock 1)).ID = (splitEntryB (sampleClock 2)).ID ∧
      (splitEntryA (sampleClock 1)).Min ≠ (splitEntryB (sampleClock 2)).Min ∧
      (splitEntryA (sampleClock 1)).Avg ≠ (splitEntryB (sampleClock 2)).Avg :=
  ⟨parseLine_ID_of_concatenation.1 goLib (sampleClock 1) (sampleClock 2)
      "01/05/23" "1" "23" "4" "" "02/05/23" "12" "3" "4" ""
      (splitEntryA (sampleClock 1)) (splitEntryB (sampleClock 2))
      parseLine_splitA parseLine_splitB (by decide),
    by decide, by decide⟩

/-! ## The trend loop -/

/-- With at least 14 prices, `j` iterations of the loop that start at index
`m + j - 1`, where `m` is the index of the 14th price from the end, feed the
prices at `m + j - 1` down to `m` and end normally. -/
theorem trendLoop_window {F : Type} [Float64 F] (prices : List F) (m : Nat)
    (hlen : prices.length = m + 14) :
    ∀ (j : Nat) (ma : VariableEWMA F), j ≤ 14 →
      trendLoop prices j ((m : Int) + j - 1) ma
        = .ok (((prices.drop m).take j).reverse.foldl VariableEWMA.Add ma) := by
  intro j
  induction j with
  | zero =>
    intro ma _
    have h : ¬ ((m : Int) + (0 : Nat) - 1 ≥ (prices.length : Int) - 14) := by
      rw [hlen]; push_cast; omega
    simp only [trendLoop]
    rw [if_neg h]
    rfl
  | succ j ih =>
    intro ma hj
    have h : (m : Int) + (j + 1 : Nat) - 1 ≥ (prices.length : Int) - 14 := by
      rw [hlen]; push_cast; omega
    have hi : (m : Int) + (j + 1 : Nat) - 1 = ((m + j : Nat) : Int) := by push_cast; omega
    have hlt : m + j < prices.length := by omega
    have hidx : indexInt prices ((m + j : Nat) : Int) = some prices[m + j] := by
      have hneg : ¬ (((m + j : Nat) : Int) < 0) := by omega
      unfold indexInt
      rw [if_neg hneg, Int.toNat_ofNat, List.getElem?_eq_getElem hlt]
    have hnext : ((m + j : Nat) : Int) - 1 = (m : Int) + j - 1 := by push_cast; omega
    have htake : (prices.drop m).take (j + 1) = (prices.drop m).take j ++ [prices[m + j]] := by
      rw [List.take_succ]
      have : (prices.drop m)[j]? = some prices[m + j] := by
        rw [List.getElem?_drop, List.getElem?_eq_getElem hlt]
      rw [this]; rfl
    simp only [trendLoop, h, if_true]
    rw [hi, hidx]
    simp only []
    rw [hnext, ih _ (by omega), htake]
    simp

/-- With fewer than 14 prices the loop walks below index 0: after the prices
at `k - 1` down to `0` it evaluates `prices[-1]` and panics. -/
theorem trendLoop_short {F : Type} [Float64 F] (prices : List F) (hlen : prices.length < 14) :
    ∀ (k fuel : Nat) (ma : VariableEWMA F), k ≤ prices.length → k < fuel →
      trendLoop prices fuel ((k : Int) - 1) ma = .panic (indexPanic (-1) prices.length) := by
  intro k
  induction k with
  | zero =>
    intro fuel ma _ hf
    obtain ⟨fuel, rfl⟩ : ∃ n, fuel = n + 1 := ⟨fuel - 1, by omega⟩
    have h : ((0 : Nat) : Int) - 1 ≥ (prices.length : Int) - 14 := by push_cast; omega
    simp only [trendLoop, h, if_true]
    simp [indexInt]
  | succ k ih =>
    intro fuel ma hk hf
    obtain ⟨fuel, rfl⟩ : ∃ n, fuel = n + 1 := ⟨fuel - 1, by omega⟩
    have h : ((k + 1 : Nat) : Int) - 1 ≥ (prices.length : Int) - 14 := by push_cast; omega
    have hi : ((k + 1 : Nat) : Int) - 1 = (k : Int) := by push_cast; omega
    have hlt : k < prices.length := by omega
    have hidx : indexInt prices (k : Int) = some prices[k] := by
      have hneg : ¬ ((k : Int) < 0) := by omega
      unfold indexInt
      rw [if_neg hneg, Int.toNat_ofNat, List.getElem?_eq_getElem hlt]
    simp only [trendLoop, h, if_true]
    rw [hi, hidx]
    exact ih fuel _ (by omega) (by omega)

/-- The text of the panic of `prices[-1]`. -/
theorem indexPanic_minus_one (len : Nat) :
    indexPanic (-1) len = "runtime error: index out of range [-1]" := by
  have h : ((-1 : Int) < 0) := by decide
  simp only [indexPanic, if_pos h]
  decide

/-! ## Claims about `checkPriceTrend` -/

/-- C4: when the query returns at least 14 prices, `checkPriceTrend` returns
the value of the moving average of span 5 after it was fed the last 14 prices,
the last price first and walking backward, and stores it in `AvgValue`. Hence
two query results of at least 14 prices with the same last 14 prices give the
same trend, and the trend of the prices 1, 2, ..., 30 is the value of the
moving average fed 30, 29, ..., 17. -/
theorem checkPriceTrend_last14 {DB F : Type} [Float64 F] :
    (∀ (E : Ext DB F) (tick : Nat) (w : World DB F) (prices : List F),
        E.Scan w.Db (E.lib.AddDate (E.clock tick) 0 0 (-29)) (E.clock tick) = .ok prices →
        14 ≤ prices.length →
        checkPriceTrend E tick w
          = (.ok (((prices.drop (prices.length - 14)).reverse.foldl VariableEWMA.Add
                (NewMovingAverage 5)).Value),
              { w with
                queries := w.queries + 1
                AvgValue := ((prices.drop (prices.length - 14)).reverse.foldl VariableEWMA.Add
                  (NewMovingAverage 5)).Value })) ∧
      (∀ (E E' : Ext DB F) (tick tick' : Nat) (w w' : World DB F) (p q : List F),
        E.Scan w.Db (E.lib.AddDate (E.clock tick) 0 0 (-29)) (E.clock tick) = .ok p →
        E'.Scan w'.Db (E'.lib.AddDate (E'.clock tick') 0 0 (-29)) (E'.clock tick') = .ok q →
        14 ≤ p.length → 14 ≤ q.length → p.drop (p.length - 14) = q.drop (q.length - 14) →
        (checkPriceTrend E tick w).1 = (checkPriceTrend E' tick' w').1) ∧
      (∀ (E : Ext DB F) (tick : Nat) (w : World DB F),
        E.Scan w.Db (E.lib.AddDate (E.clock tick) 0 0 (-29)) (E.clock tick)
          = .ok ((List.range 30).map fun i => Float64.lit (i + 1)) →
        (checkPriceTrend E tick w).1
          = .ok (([30, 29, 28, 27, 26, 25, 24, 23, 22, 21, 20, 19, 18, 17].map
              Float64.lit).foldl VariableEWMA.Add (NewMovingAverage 5)).Value) := by
  have main : ∀ (E : Ext DB F) (tick : Nat) (w : World DB F) (prices : List F),
      E.Scan w.Db (E.lib.AddDate (E.clock tick) 0 0 (-29)) (E.clock tick) = .ok prices →
      14 ≤ prices.length →
      checkPriceTrend E tick w
        = (.ok (((prices.drop (prices.length - 14)).reverse.foldl VariableEWMA.Add
              (NewMovingAverage 5)).Value),
            { w with
              queries := w.queries + 1
              AvgValue := ((prices.drop (prices.length - 14)).reverse.foldl VariableEWMA.Add
                (NewMovingAverage 5)).Value }) := by
    intro E tick w prices hq hlen
    have hl : prices.length = (prices.length - 14) + 14 := by omega
    have hloop := trendLoop_window prices (prices.length - 14) hl 14 (NewMovingAverage 5)
      (le_refl 14)
    have hstart : ((prices.length - 14 : Nat) : Int) + (14 : Nat) - 1
        = (prices.length : Int) - 1 := by omega
    rw [hstart] at hloop
    have htake : (prices.drop (prices.length - 14)).take 14
        = prices.drop (prices.length - 14) := by
      apply List.take_of_length_le
      simp
      omega
    rw [htake] at hloop
    simp only [checkPriceTrend, hq, hloop]
  refine ⟨main, ?_, ?_⟩
  · intro E E' tick tick' w w' p q hp hq lp lq hpq
    rw [main E tick w p hp lp, main E' tick' w' q hq lq, hpq]
  · intro E tick w hq
    rw [main E tick w _ hq (by simp)]
    rfl

/-- C4, in exact arithmetic: the trend of 1, 2, ..., 30 is 1579/81, and it is
also the trend of the 14 prices 17, ..., 30 alone. -/
theorem checkPriceTrend_last14_witness :
    (checkPriceTrend
        (sampleExt (.response 200 oneRowBody) (fun _ => none)
          (.ok ((List.range 30).map fun i => Float64.lit (i + 1)))) 2 sampleWorld).1
        = .ok (1579 / 81 : ℚ) ∧
      (checkPriceTrend
        (sampleExt (.response 200 oneRowBody) (fun _ => none)
          (.ok ((List.range 30).map fun i => Float64.lit (i + 1)))) 2 sampleWorld).1
        = (checkPriceTrend
            (sampleExt (.response 200 oneRowBody) (fun _ => none)
              (.ok [17, 18, 19, 20, 21, 22, 23, 24, 25, 26, 27, 28, 29, 30])) 2 sampleWorld).1 :=
  ⟨(checkPriceTrend_last14.2.2 _ 2 sampleWorld rfl).trans (by decide!),
    checkPriceTrend_last14.2.1 _ _ 2 2 sampleWorld sampleWorld _ _ rfl rfl (by decide)
      (by decide) (by decide!)⟩

/-- C5: when the query returns fewer than 14 prices (none at all, for one),
the loop of `checkPriceTrend` goes on below index 0, the expression
`prices[-1]` panics, and no value and no error is returned. -/
theorem checkPriceTrend_short {DB F : Type} [Float64 F] (E : Ext DB F) (tick : Nat)
    (w : World DB F) (prices : List F)
    (hq : E.Scan w.Db (E.lib.AddDate (E.clock tick) 0 0 (-29)) (E.clock tick) = .ok prices)
    (hlen : prices.length < 14) :
    checkPriceTrend E tick w
      = (.panic "runtime error: index out of range [-1]",
          { w with queries := w.queries + 1 }) := by
  have hloop := trendLoop_short prices hlen prices.length 14 (NewMovingAverage 5)
    (le_refl _) hlen
  simp only [checkPriceTrend, hq, hloop, indexPanic_minus_one]

/-- C5, on an empty query result and on one of 13 prices. -/
theorem checkPriceTrend_short_witness :
    (checkPriceTrend (sampleExt (.response 200 oneRowBody) (fun _ => none) (.ok [])) 2
        sampleWorld).1 = .panic "runtime error: index out of range [-1]" ∧
      (checkPriceTrend
        (sampleExt (.response 200 oneRowBody) (fun _ => none) (.ok (List.replicate 13 100))) 2
        sampleWorld).1 = .panic "runtime error: index out of range [-1]" :=
  ⟨congrArg Prod.fst
      (checkPriceTrend_short (sampleExt (.response 200 oneRowBody) (fun _ => none) (.ok [])) 2
        sampleWorld [] rfl (by decide)),
    congrArg Prod.fst
      (checkPriceTrend_short
        (sampleExt (.response 200 oneRowBody) (fun _ => none) (.ok (List.replicate 13 100))) 2
        sampleWorld (List.replicate 13 100) rfl (by decide))⟩

/-! ## The steps of `updateListings` -/

/-- The alert message is not a message about a failed download. -/
theorem alertMessage_ne_failure {F : Type} [Float64 F] (value : F) (err : Option String) :
    alertMessage value ≠ downloadFailureMessage err := by
  intro h
  have h2 := congrArg String.data h
  simp [alertMessage, downloadFailureMessage, String.data_append] at h2

/-- What `SendMatrixNotification` changes: one message more, and a log line
when the delivery fails. -/
theorem SendMatrixNotification_effect {DB F : Type} (E : Ext DB F) (message : String)
    (w : World DB F) :
    (SendMatrixNotification E message w).sent = w.sent ++ [message] ∧
      (SendMatrixNotification E message w).created = w.created ∧
      (SendMatrixNotification E message w).Db = w.Db ∧
      (SendMatrixNotification E message w).queries = w.queries ∧
      (SendMatrixNotification E message w).AvgValue = w.AvgValue ∧
      (SendMatrixNotification E message w).config = w.config ∧
      ∃ more, (SendMatrixNotification E message w).logs = w.logs ++ more := by
  unfold SendMatrixNotification
  cases E.SendMessageEvent message with
  | none => exact ⟨rfl, rfl, rfl, rfl, rfl, rfl, [], by simp⟩
  | some err => exact ⟨rfl, rfl, rfl, rfl, rfl, rfl, _, rfl⟩

/-- What the saving loop leaves alone, the entries it hands to the database (a
prefix of the data, which starts with the first entry), and what it logs. -/
theorem saveLoop_effect {DB F : Type} (E : Ext DB F) (data : List Entry) :
    ∀ w : World DB F,
      (saveLoop E data w).2.sent = w.sent ∧
      (saveLoop E data w).2.queries = w.queries ∧
      (saveLoop E data w).2.AvgValue = w.AvgValue ∧
      (saveLoop E data w).2.config = w.config ∧
      (∃ pre, (saveLoop E data w).2.created = w.created ++ pre ∧ pre <+: data ∧
        (data ≠ [] → pre ≠ [])) ∧
      (saveLoop E data w).2.logs
        = w.logs ++ (if (saveLoop E data w).1 = none then []
            else ["error adding listings to db"]) := by
  induction data with
  | nil => intro w; simp [saveLoop]
  | cons entry rest ih =>
    intro w
    cases hr : (E.FirstOrCreate w.Db entry).2 with
    | some err =>
      have hs : saveLoop E (entry :: rest) w
          = (some err, { w with
              Db := (E.FirstOrCreate w.Db entry).1
              created := w.created ++ [entry]
              logs := w.logs ++ ["error adding listings to db"] }) := by
        simp only [saveLoop, hr]
      rw [hs]
      refine ⟨rfl, rfl, rfl, rfl, ⟨[entry], rfl, ⟨rest, rfl⟩, by simp⟩, by simp⟩
    | none =>
      have hs : saveLoop E (entry :: rest) w
          = saveLoop E rest { w with
              Db := (E.FirstOrCreate w.Db entry).1
              created := w.created ++ [entry] } := by
        simp only [saveLoop, hr]
      rw [hs]
      obtain ⟨a, b, c, d, ⟨pre, hpre, hpfx, _⟩, f⟩ :=
        ih { w with Db := (E.FirstOrCreate w.Db entry).1, created := w.created ++ [entry] }
      refine ⟨a, b, c, d, ⟨entry :: pre, ?_, ?_, by simp⟩, f⟩
      · rw [hpre]; simp
      · obtain ⟨t, ht⟩ := hpfx
        exact ⟨t, by simp [← ht]⟩

/-- What `checkPriceTrend` leaves alone. -/
theorem checkPriceTrend_effect {DB F : Type} [Float64 F] (E : Ext DB F) (tick : Nat)
    (w : World DB F) :
    (checkPriceTrend E tick w).2.sent = w.sent ∧
      (checkPriceTrend E tick w).2.created = w.created ∧
      (checkPriceTrend E tick w).2.logs = w.logs ∧
      (checkPriceTrend E tick w).2.config = w.config ∧
      (checkPriceTrend E tick w).2.Db = w.Db := by
  simp only [checkPriceTrend]
  split
  · exact ⟨rfl, rfl, rfl, rfl, rfl⟩
  · split <;> exact ⟨rfl, rfl, rfl, rfl, rfl⟩

/-- When saving and the trend succeed, `updateWith` compares the trend with
the threshold, sends the alert if it is greater, and logs the end of the
run. -/
theorem updateWith_finished {DB F : Type} [Float64 F] (E : Ext DB F) (data : List Entry)
    (w w1 w2 : World DB F) (value : F)
    (hs : saveLoop E data w = (none, w1))
    (ht : checkPriceTrend E (data.length + 1) w1 = (.ok value, w2)) :
    (updateWith E data w).1 = .ok () ∧
      (updateWith E data w).2.sent
        = w.sent ++ (if Float64.gt value w.config.MaxValue then [alertMessage value] else []) := by
  have e1 := saveLoop_effect E data w
  have e2 := checkPriceTrend_effect E (data.length + 1) w1
  rw [hs] at e1
  rw [ht] at e2
  simp only at e1 e2
  have hsent : w2.sent = w.sent := e2.1.trans e1.1
  have hconf : w2.config = w.config := e2.2.2.2.1.trans e1.2.2.2.1
  refine ⟨?_, ?_⟩
  · simp only [updateWith, hs, ht]
  · simp only [updateWith, hs, ht, hconf]
    cases hgt : Float64.gt value w.config.MaxValue with
    | true => simp [(SendMatrixNotification_effect E _ w2).1, hsent]
    | false => simp [hsent]

/-- Whatever happens after the download, the messages `updateWith` sends are
not about a failed download, and the entries it hands to the database are a
prefix of the data that is not empty when the data are not. -/
theorem updateWith_effect {DB F : Type} [Float64 F] (E : Ext DB F) (data : List Entry)
    (w : World DB F) :
    (∃ new, (updateWith E data w).2.sent = w.sent ++ new ∧
        ∀ m ∈ new, ∀ err, m ≠ downloadFailureMessage err) ∧
      ∃ pre, (updateWith E data w).2.created = w.created ++ pre ∧ pre <+: data ∧
        (data ≠ [] → pre ≠ []) := by
  have e1 := saveLoop_effect E data w
  rcases hs : saveLoop E data w with ⟨r, w1⟩
  rw [hs] at e1
  simp only at e1
  obtain ⟨s1, _, _, _, hcr, _⟩ := e1
  cases r with
  | some err =>
    simp only [updateWith, hs]
    exact ⟨⟨[], by simp [s1], by simp⟩, hcr⟩
  | none =>
    have e2 := checkPriceTrend_effect E (data.length + 1) w1
    rcases ht : checkPriceTrend E (data.length + 1) w1 with ⟨res, w2⟩
    rw [ht] at e2
    simp only at e2
    obtain ⟨s2, c2, _, _, _⟩ := e2
    cases res with
    | err msg =>
      simp only [updateWith, hs, ht]
      exact ⟨⟨[], by simp [s1, s2], by simp⟩, by rw [c2]; exact hcr⟩
    | panic msg =>
      simp only [updateWith, hs, ht]
      exact ⟨⟨[], by simp [s1, s2], by simp⟩, by rw [c2]; exact hcr⟩
    | fuel =>
      simp only [updateWith, hs, ht]
      exact ⟨⟨[], by simp [s1, s2], by simp⟩, by rw [c2]; exact hcr⟩
    | ok value =>
      simp only [updateWith, hs, ht]
      cases hgt : Float64.gt value w2.config.MaxValue with
      | true =>
        simp only [if_true]
        obtain ⟨q1, q2, _⟩ := SendMatrixNotification_effect E (alertMessage value) w2
        refine ⟨⟨[alertMessage value], by rw [q1, s2, s1], ?_⟩, by rw [q2, c2]; exact hcr⟩
        intro m hm err
        simp only [List.mem_singleton] at hm
        rw [hm]
        exact alertMessage_ne_failure value err
      | false =>
        simp only [Bool.false_eq_true, if_false]
        exact ⟨⟨[], by simp [s1, s2], by simp⟩, by rw [c2]; exact hcr⟩

/-! ## Claims about `updateListings` -/

/-- After a download that returned entries, `updateListings` is `updateWith`. -/
theorem updateListings_ok {DB F : Type} [Float64 F] (E : Ext DB F) (w : World DB F)
    (data : List Entry) (hg : getData E.lib E.clock E.httpGet = .ok data) (hne : data ≠ []) :
    updateListings E w = updateWith E data w := by
  have hl : ¬ data.length = 0 := by
    intro h
    exact hne (List.length_eq_zero.mp h)
  simp only [updateListings, hg, hl, if_false]

/-- C6: when `getData` returns an error or no entry, `updateListings` ends the
run: exactly one message, the one about the failed download, is sent, no entry
is handed to the database, no trend query is issued and `AvgValue` is left as
it was. A body whose data rows are all malformed is such a run; a body with a
well-formed data row is not: its first entry is handed to the database and no
message about a failed download is sent. -/
theorem updateListings_download_failure {DB F : Type} [Float64 F] (E : Ext DB F)
    (w : World DB F) :
    (∀ err : Option String,
        ((∃ msg, err = some msg ∧ getData E.lib E.clock E.httpGet = .err msg) ∨
          (err = none ∧ getData E.lib E.clock E.httpGet = .ok [])) →
        (updateListings E w).1 = .ok () ∧
        (updateListings E w).2.sent = w.sent ++ [downloadFailureMessage err] ∧
        (updateListings E w).2.created = w.created ∧
        (updateListings E w).2.Db = w.Db ∧
        (updateListings E w).2.queries = w.queries ∧
        (updateListings E w).2.AvgValue = w.AvgValue) ∧
      (∀ h1 h2 rows, E.httpGet = .response 200 (h1 :: h2 :: rows) →
        (∀ row ∈ rows, wellFormed E.lib row = false) →
        getData E.lib E.clock E.httpGet = .ok [] ∧
        (updateListings E w).2.sent = w.sent ++ [downloadFailureMessage none] ∧
        (updateListings E w).2.created = w.created) ∧
      (∀ h1 h2 rows, E.httpGet = .response 200 (h1 :: h2 :: rows) →
        (∃ row ∈ rows, wellFormed E.lib row = true) →
        (∃ e es, getData E.lib E.clock E.httpGet = .ok (e :: es) ∧
          ∃ more, (updateListings E w).2.created = w.created ++ e :: more) ∧
        ∃ new, (updateListings E w).2.sent = w.sent ++ new ∧
          ∀ m ∈ new, ∀ err, m ≠ downloadFailureMessage err) := by
  have fail : ∀ err : Option String,
      ((∃ msg, err = some msg ∧ getData E.lib E.clock E.httpGet = .err msg) ∨
        (err = none ∧ getData E.lib E.clock E.httpGet = .ok [])) →
      updateListings E w = (.ok (), downloadFailed E err w) := by
    intro err h
    rcases h with ⟨msg, rfl, hg⟩ | ⟨rfl, hg⟩
    · simp only [updateListings, hg]
    · simp [updateListings, hg]
  have eff : ∀ err : Option String,
      (downloadFailed E err w).sent = w.sent ++ [downloadFailureMessage err] ∧
      (downloadFailed E err w).created = w.created ∧
      (downloadFailed E err w).Db = w.Db ∧
      (downloadFailed E err w).queries = w.queries ∧
      (downloadFailed E err w).AvgValue = w.AvgValue := by
    intro err
    obtain ⟨a, b, c, d, e, _, _⟩ := SendMatrixNotification_effect E (downloadFailureMessage err)
      { w with logs := w.logs ++ ["error downloading data"] }
    exact ⟨a, b, c, d, e⟩
  refine ⟨?_, ?_, ?_⟩
  · intro err h
    rw [fail err h]
    exact ⟨rfl, eff err⟩
  · intro h1 h2 rows hb hbad
    have hfil : rows.filter (wellFormed E.lib) = [] := by
      rw [List.filter_eq_nil_iff]
      intro row hrow
      simp [hbad row hrow]
    have hg : getData E.lib E.clock E.httpGet = .ok [] := by
      rw [hb, getData_response]
      simp only [List.drop_succ_cons, List.drop_zero]
      rw [← recordsFrom_filter, hfil]
      rfl
    rw [fail none (Or.inr ⟨rfl, hg⟩)]
    exact ⟨hg, (eff none).1, (eff none).2.1⟩
  · intro h1 h2 rows hb hgood
    have hg : getData E.lib E.clock E.httpGet = .ok (recordsFrom E.lib E.clock 1 rows) := by
      rw [hb, getData_response]
      rfl
    have hlen : 0 < (recordsFrom E.lib E.clock 1 rows).length := by
      rw [recordsFrom_length]
      obtain ⟨row, hrow, hwf⟩ := hgood
      exact List.length_pos_of_mem (List.mem_filter.mpr ⟨hrow, hwf⟩)
    obtain ⟨e, es, hes⟩ : ∃ e es, recordsFrom E.lib E.clock 1 rows = e :: es := by
      cases h : recordsFrom E.lib E.clock 1 rows with
      | nil => rw [h] at hlen; exact absurd hlen (by simp)
      | cons e es => exact ⟨e, es, rfl⟩
    rw [hes] at hg
    rw [updateListings_ok E w (e :: es) hg (by simp)]
    obtain ⟨hsent, pre, hpre, hpfx, hne⟩ := updateWith_effect E (e :: es) w
    refine ⟨⟨e, es, hg, ?_⟩, hsent⟩
    cases pre with
    | nil => exact absurd rfl (hne (by simp))
    | cons p more =>
      obtain ⟨t, ht⟩ := hpfx
      have hp : p = e := by
        have := congrArg List.head? ht
        simpa using this
      exact ⟨more, by rw [hpre, hp]⟩

/-- C7: once the download, the saving and the trend computation have
succeeded, `updateListings` sends the alert that carries the trend, once, when
the trend is greater than `config.MaxValue`, and sends nothing otherwise. -/
theorem updateListings_alert {DB F : Type} [Float64 F] (E : Ext DB F) (w w1 w2 : World DB F)
    (data : List Entry) (value : F)
    (hg : getData E.lib E.clock E.httpGet = .ok data) (hne : data ≠ [])
    (hs : saveLoop E data w = (none, w1))
    (ht : checkPriceTrend E (data.length + 1) w1 = (.ok value, w2)) :
    (updateListings E w).1 = .ok () ∧
      (updateListings E w).2.sent
        = w.sent ++ (if Float64.gt value w.config.MaxValue then [alertMessage value] else []) := by
  rw [updateListings_ok E w data hg hne]
  exact updateWith_finished E data w w1 w2 value hs ht

/-- C8 (where the code departs from the claim): a run of `updateListings`
that ends because `Db.FirstOrCreate` failed on an entry, or because the trend
query failed, writes the log line `error adding listings to db` and sends no
message to the Matrix room. -/
theorem updateListings_failure_unreported {DB F : Type} [Float64 F] (E : Ext DB F)
    (w : World DB F) (data : List Entry)
    (hg : getData E.lib E.clock E.httpGet = .ok data) (hne : data ≠ [])
    (hfail : (∃ err w1, saveLoop E data w = (some err, w1)) ∨
      (∃ w1 msg w2, saveLoop E data w = (none, w1) ∧
        checkPriceTrend E (data.length + 1) w1 = (.err msg, w2))) :
    (updateListings E w).1 = .ok () ∧
      (updateListings E w).2.sent = w.sent ∧
      (updateListings E w).2.logs = w.logs ++ ["error adding listings to db"] := by
  rw [updateListings_ok E w data hg hne]
  have e1 := saveLoop_effect E data w
  rcases hfail with ⟨err, w1, hs⟩ | ⟨w1, msg, w2, hs, ht⟩
  · rw [hs] at e1
    simp only at e1
    simp only [updateWith, hs]
    exact ⟨trivial, e1.1, by simpa using e1.2.2.2.2.2⟩
  · have e2 := checkPriceTrend_effect E (data.length + 1) w1
    rw [hs] at e1
    rw [ht] at e2
    simp only at e1 e2
    simp only [updateWith, hs, ht]
    refine ⟨trivial, e2.1.trans e1.1, ?_⟩
    rw [e2.2.2.1]
    simpa using e1.2.2.2.2.2

/-- C6, on a response with status 404, on a body whose data rows are all
malformed, and on the sample body, whose first data row is well formed. -/
theorem updateListings_download_failure_witness :
    ((updateListings (sampleExt (.response 404 oneRowBody) (fun _ => none) (.ok []))
        sampleWorld).2.sent
        = ["<h3>omiewatcher</h3><bold>error downloading data</bold> " ++
            "server status code not 200: 404"] ∧
      (updateListings (sampleExt (.response 404 oneRowBody) (fun _ => none) (.ok []))
        sampleWorld).2.created = []) ∧
    ((updateListings (sampleExt (.response 200 malformedBody) (fun _ => none) (.ok []))
        sampleWorld).2.sent
        = ["<h3>omiewatcher</h3><bold>error downloading data</bold> <nil>"] ∧
      (updateListings (sampleExt (.response 200 malformedBody) (fun _ => none) (.ok []))
        sampleWorld).2.created = []) ∧
    ∃ more, (updateListings (sampleExt (.response 200 sampleBody) (fun _ => none) (.ok []))
        sampleWorld).2.created = sampleEntry (sampleClock 1) :: more :=
  have a := (updateListings_download_failure
    (sampleExt (.response 404 oneRowBody) (fun _ => none) (.ok [])) sampleWorld).1
    (some "server status code not 200: 404") (Or.inl ⟨_, rfl, by decide⟩)
  have b := (updateListings_download_failure
    (sampleExt (.response 200 malformedBody) (fun _ => none) (.ok [])) sampleWorld).2.1
    _ _ (malformedBody.drop 2) rfl (by decide)
  have c := (updateListings_download_failure
    (sampleExt (.response 200 sampleBody) (fun _ => none) (.ok [])) sampleWorld).2.2
    _ _ (sampleBody.drop 2) rfl ⟨.ofLine 3 "01/05/23;40,00;45,50;50,00;extra", by decide, by decide⟩
  have hd := getData_sampleBody
  ⟨⟨a.2.1.trans (by decide), a.2.2.1⟩, ⟨b.2.1.trans (by decide), b.2.2⟩,
    match c.1 with
    | ⟨e, es, hg, more, hmore⟩ =>
      have he : e = sampleEntry (sampleClock 1) := by
        have h2 := hg.symm.trans hd
        simp only [Res.ok.injEq, List.cons.injEq] at h2
        exact h2.1
      ⟨more, by rw [hmore, he]; rfl⟩⟩

/-- C7, with the threshold 130: 14 prices of 150 give the trend 150 and one
alert that carries it; 14 prices of 100 give the trend 100 and no message; 14
prices of 130 give the trend 130, which is not greater than the threshold, and
no message. -/
theorem updateListings_alert_witness :
    (updateListings
        (sampleExt (.response 200 oneRowBody) (fun _ => none) (.ok (List.replicate 14 150)))
        sampleWorld).2.sent
        = ["<h3>omiewatcher</h3><p><bold>Price will hit hardcoded maximum: </bold>150.00</p>"] ∧
      (updateListings
        (sampleExt (.response 200 oneRowBody) (fun _ => none) (.ok (List.replicate 14 100)))
        sampleWorld).2.sent = [] ∧
      (updateListings
        (sampleExt (.response 200 oneRowBody) (fun _ => none) (.ok (List.replicate 14 130)))
        sampleWorld).2.sent = [] :=
  have hd := getData_oneRowBody
  ⟨(updateListings_alert
      (sampleExt (.response 200 oneRowBody) (fun _ => none) (.ok (List.replicate 14 150)))
      sampleWorld savedWorld (trendWorld 150) [sampleEntry (sampleClock 1)] 150
      hd (by simp) (by decide!) (by decide!)).2.trans (by decide!),
    (updateListings_alert
      (sampleExt (.response 200 oneRowBody) (fun _ => none) (.ok (List.replicate 14 100)))
      sampleWorld savedWorld (trendWorld 100) [sampleEntry (sampleClock 1)] 100
      hd (by simp) (by decide!) (by decide!)).2.trans (by decide!),
    (updateListings_alert
      (sampleExt (.response 200 oneRowBody) (fun _ => none) (.ok (List.replicate 14 130)))
      sampleWorld savedWorld (trendWorld 130) [sampleEntry (sampleClock 1)] 130
      hd (by simp) (by decide!) (by decide!)).2.trans (by decide!)⟩

/-- C8, on a run in which the database refuses the entry and on a run in which
the trend query fails: one log line each, and no message. -/
theorem updateListings_failure_unreported_witness :
    ((updateListings
        (sampleExt (.response 200 oneRowBody) (fun _ => some "connection refused") (.ok []))
        sampleWorld).2.sent = [] ∧
      (updateListings
        (sampleExt (.response 200 oneRowBody) (fun _ => some "connection refused") (.ok []))
        sampleWorld).2.logs = ["error adding listings to db"]) ∧
    ((updateListings
        (sampleExt (.response 200 oneRowBody) (fun _ => none) (.error "connection refused"))
        sampleWorld).2.sent = [] ∧
      (updateListings
        (sampleExt (.response 200 oneRowBody) (fun _ => none) (.error "connection refused"))
        sampleWorld).2.logs = ["error adding listings to db"]) :=
  have hd := getData_oneRowBody
  have a := updateListings_failure_unreported
    (sampleExt (.response 200 oneRowBody) (fun _ => some "connection refused") (.ok []))
    sampleWorld [sampleEntry (sampleClock 1)] hd (by simp)
    (Or.inl ⟨"connection refused",
      { sampleWorld with
        created := [sampleEntry (sampleClock 1)], logs := ["error adding listings to db"] },
      by decide!⟩)
  have b := updateListings_failure_unreported
    (sampleExt (.response 200 oneRowBody) (fun _ => none) (.error "connection refused"))
    sampleWorld [sampleEntry (sampleClock 1)] hd (by simp)
    (Or.inr ⟨savedWorld, "connection refused", { savedWorld with queries := 1 },
      by decide!, by decide!⟩)
  ⟨⟨a.2.1, a.2.2⟩, ⟨b.2.1, b.2.2⟩⟩

end OmieWatcher
